import Mathlib

/-!
projet_tsi : the game logic of `src/main.cpp` and the screenshot writer of
`src/tools/glhelper.cpp`.

Modelling conventions.

* A C++ `float` or `double` is modelled by the rational number it denotes (`ℚ`).
  Comparisons are exact, as in the program. Every addition, subtraction and conversion
  that the program performs rounds its result: the rounding of single precision is
  `Arith.f32`, the rounding of double precision is `Arith.f64`. The arithmetic of the
  program is `ieee` (binary32 and binary64, round to nearest, ties to even); `exact` is
  the arithmetic without rounding. Infinities and NaN are not modelled: the rounding
  `roundTo` keeps growing where binary32 overflows. From finite floats and draws in
  `[0, 1]` no value stored by a callback overflows (`advance_right_finite`,
  `advance_left_finite`, `key_step_finite`), and a difference that overflows in
  `collision` fails the comparison with 5 or 2 in both readings.
* Literals that binary32 holds exactly (22, -15, 30, 55, 50, 1.5, 0.25, 5, 2, ...) are
  written as they are; the other literals go through the rounding (`0.9` is
  `A.f32 (A.f64 (9/10))`, `1.6f` is `A.f32 (16/10)`).
* `temps` and `score` are C++ `int`; signed overflow is undefined behaviour, so the
  counters are modelled by `Int` (valid while they stay in the `int` range).
* The globals `obj[6]` and `text_to_draw[5]` are the record fields `obj0 .. obj5` and
  `text0 .. text4`; `GameState.obj` reads `obj[n]` for an index held in a variable.
* Calls into OpenGL / GLUT are recorded, in order, in the field `effects`; texture names
  are handed out by the counter `glNextTexture` (what `glGenTextures` does).
* `declaration.h` (the declarations of `vec2`, `vec3`, `transformation`, `objet3d`,
  `text`, `camera`) is not among the sources: the records below hold the members that
  `main.cpp` reads and writes.
-/

namespace ProjetTsi

/-- Rounding of a rational to the nearest integer, ties to the even one. -/
def rne (x : ℚ) : ℤ :=
  if x - ⌊x⌋ < 1/2 then ⌊x⌋
  else if 1/2 < x - ⌊x⌋ then ⌊x⌋ + 1
  else if ⌊x⌋ % 2 = 0 then ⌊x⌋ else ⌊x⌋ + 1

/-- Binary logarithm of a natural number, rounded down, by repeated halving (`fuel` bounds
the number of halvings). -/
def log2Aux : ℕ → ℕ → ℕ
  | 0, _ => 0
  | fuel + 1, n => if n < 2 then 0 else log2Aux fuel (n / 2) + 1

/-- Binary logarithm of a positive rational, rounded down. -/
def ilog2 (q : ℚ) : ℤ :=
  let k : ℤ := (log2Aux q.num.natAbs q.num.natAbs : ℤ) - (log2Aux q.den q.den : ℤ)
  if (2 : ℚ) ^ k ≤ q then k else k - 1

/-- Exponent of the unit in the last place of a positive rational `q` in the binary
floating-point format with `p` digits and least exponent `emin`. -/
def ulpExp (p : ℕ) (emin : ℤ) (q : ℚ) : ℤ :=
  max (ilog2 q - (p - 1)) emin

/-- Rounding of a positive rational to the binary format with `p` digits and least
exponent `emin` : the nearest multiple of the unit in the last place, ties to even. -/
def roundPos (p : ℕ) (emin : ℤ) (q : ℚ) : ℚ :=
  (rne (q / 2 ^ ulpExp p emin q) : ℚ) * 2 ^ ulpExp p emin q

/-- Rounding to nearest, ties to even, of a rational to the binary floating-point format
with `p` digits and least exponent `emin`. -/
def roundTo (p : ℕ) (emin : ℤ) (q : ℚ) : ℚ :=
  if 0 < q then roundPos p emin q else if q < 0 then -roundPos p emin (-q) else 0

/-- An arithmetic : how a real result is rounded when it is stored in a `float` (`f32`)
and in a `double` (`f64`). -/
structure Arith where
  f32 : ℚ → ℚ
  f64 : ℚ → ℚ

/-- The arithmetic of the program : IEEE 754 binary32 (24 digits, least exponent -149) and
binary64 (53 digits, least exponent -1074), round to nearest, ties to even. -/
def ieee : Arith := ⟨roundTo 24 (-149), roundTo 53 (-1074)⟩

/-- The arithmetic without rounding. -/
def exact : Arith := ⟨fun q => q, fun q => q⟩

/-- A `double` literal stored in a `float` : rounded to double, then to single precision. -/
def Arith.lit (A : Arith) (q : ℚ) : ℚ :=
  A.f32 (A.f64 q)

/-- What the proofs use of an arithmetic : both roundings are monotone and odd, and leave
the multiples of 1/4 with a numerator below `2 ^ 24` as they are. -/
structure Arith.Lawful (A : Arith) : Prop where
  mono32 : ∀ x y : ℚ, x ≤ y → A.f32 x ≤ A.f32 y
  odd32 : ∀ x : ℚ, A.f32 (-x) = -A.f32 x
  fix32 : ∀ m : ℤ, |m| < 2 ^ 24 → A.f32 (m / 4) = m / 4
  mono64 : ∀ x y : ℚ, x ≤ y → A.f64 x ≤ A.f64 y
  odd64 : ∀ x : ℚ, A.f64 (-x) = -A.f64 x
  fix64 : ∀ m : ℤ, |m| < 2 ^ 24 → A.f64 (m / 4) = m / 4
/-- A `vec2` : two float members. -/
structure vec2 where
  x : ℚ
  y : ℚ
deriving DecidableEq

/-- A `vec3` : three float members. -/
structure vec3 where
  x : ℚ
  y : ℚ
  z : ℚ
deriving DecidableEq

/-- The `transformation` of an object or of the camera. -/
structure transformation where
  translation : vec3
  rotation_center : vec3
  rotation_euler : vec3
deriving DecidableEq

/-- An `objet3d` : GPU handles, visibility flag and transformation. -/
structure objet3d where
  vao : Nat
  nb_triangle : Nat
  texture_id : Nat
  prog : Nat
  visible : Bool
  tr : transformation
deriving DecidableEq

/-- A `text` label : GPU handles, visibility flag, value and screen rectangle. -/
structure text where
  vao : Nat
  texture_id : Nat
  prog : Nat
  visible : Bool
  value : String
  bottomLeft : vec2
  topRight : vec2
deriving DecidableEq

/-- The `camera` : only its transformation is touched by the callbacks (the projection
matrix is fixed by `init`). -/
structure camera where
  tr : transformation
deriving DecidableEq

/-- The callbacks that `glutTimerFunc` can be asked to call back. -/
inductive Callback where
  | timer_callback
  | compteur
deriving DecidableEq

/-- A call into the graphics libraries, as seen from the game logic. -/
inductive Effect where
  | load_texture (filename : String)
  | glutTimerFunc (ms : Nat) (cb : Callback)
  | glutPostRedisplay
  | print_screen
deriving DecidableEq

/-- The global variables of `main.cpp`. -/
structure GameState where
  obj0 : objet3d
  obj1 : objet3d
  obj2 : objet3d
  obj3 : objet3d
  obj4 : objet3d
  obj5 : objet3d
  text0 : text
  text1 : text
  text2 : text
  text3 : text
  text4 : text
  cam : camera
  temps : Int
  score : Int
  perdu : Bool
  a : ℚ
  b : ℚ
  c : ℚ
  d : ℚ
  glNextTexture : Nat
  effects : List Effect
deriving DecidableEq

/-- Read of `obj[n]` (indices above 5 are never used by the program). -/
def GameState.obj (s : GameState) : Nat → objet3d
  | 0 => s.obj0
  | 1 => s.obj1
  | 2 => s.obj2
  | 3 => s.obj3
  | 4 => s.obj4
  | _ => s.obj5

/-- `glhelper::load_texture(filename)` when the image file is found : a new texture name
is generated and returned (when the file is missing the program aborts). -/
def load_texture (filename : String) (s : GameState) : Nat × GameState :=
  (s.glNextTexture,
   { s with glNextTexture := s.glNextTexture + 1,
            effects := s.effects ++ [Effect.load_texture filename] })

/-- The array `NumeroDinosaure` of `collision`. -/
def NumeroDinosaure : List Nat := [0, 3, 4, 5]


/-- The test of the `if` in the loop of `collision`, for the obstacle `obj[n]` : each
difference of two floats is a float, rounded, before `abs` and the comparison (for the
reading of `abs` as `int abs(int)`, see `abs_float_to_int_lt`). -/
def collision_test (A : Arith) (s : GameState) (n : Nat) : Prop :=
  |A.f32 (s.obj2.tr.translation.x - (s.obj n).tr.translation.x)| < 5 ∧
  |A.f32 (s.obj2.tr.translation.z - (s.obj n).tr.translation.z)| < 2

instance (A : Arith) (s : GameState) (n : Nat) : Decidable (collision_test A s n) := by
  unfold collision_test; infer_instance

/-- The body of the `if` in the loop of `collision`. The arguments `-0.9` and `0.9` of
`vec2` are `double` literals stored in floats. -/
def collision_hit (A : Arith) (s : GameState) : GameState :=
  let r := load_texture "data/natani.tga" s
  let s1 := r.2
  { s1 with
    obj1 := { s1.obj1 with texture_id := r.1 },
    obj0 := { s1.obj0 with visible := false },
    obj3 := { s1.obj3 with visible := false },
    obj2 := { s1.obj2 with visible := false },
    obj4 := { s1.obj4 with visible := false },
    obj5 := { s1.obj5 with visible := false },
    text3 := { s1.text0 with value := "T'es mauvais Jack",
                             bottomLeft := ⟨A.f32 (-A.f64 (9/10)), A.f32 (-A.f64 (9/10))⟩,
                             topRight := ⟨A.lit (9/10), A.lit (9/10)⟩ },
    perdu := true }

/-- One iteration `i` of the loop of `collision`. -/
def collision_iter (A : Arith) (s : GameState) (i : Nat) : GameState :=
  if collision_test A s (NumeroDinosaure.getD i 0) then collision_hit A s else s

/-- `collision()` : the loop runs `i = 0, 1, 2, 3`. -/
def collision (A : Arith) (s : GameState) : GameState :=
  (List.range 4).foldl (collision_iter A) s

/-- `win()`. -/
def win (s : GameState) : GameState :=
  if s.obj2.tr.translation.z > 22 then
    { s with
      obj2 := { s.obj2 with tr := { s.obj2.tr with
                  translation := { s.obj2.tr.translation with z := -15 } } },
      score := s.score + 1 }
  else s

/-- An object moved to the abscissa `x` (assignment to `tr.translation.x`). -/
def objet3d.setX (o : objet3d) (x : ℚ) : objet3d :=
  { o with tr := { o.tr with translation := { o.tr.translation with x := x } } }

/-- An object moved to the depth `z` (assignment to `tr.translation.z`). -/
def objet3d.setZ (o : objet3d) (z : ℚ) : objet3d :=
  { o with tr := { o.tr with translation := { o.tr.translation with z := z } } }

/-- `x += (a+0.25); if (x > 30.0f) x -= 55.0f;` as done for `obj[0]` with the draw `a`
and for `obj[5]` with the draw `c`. The sum `a+0.25` and the sum with `x` are computed in
double precision and the result is stored in the float `x`; `x -= 55.0f` is computed in
single precision. -/
def advance_right (A : Arith) (x a : ℚ) : ℚ :=
  let x1 := A.f32 (A.f64 (x + A.f64 (a + 1/4)))
  if x1 > 30 then A.f32 (x1 - 55) else x1

/-- `x -= (b+0.25); if (x < -30.0f) x += 50.0f;` as done for `obj[3]` with the draw `b`
and for `obj[4]` with the draw `d`, with the same roundings as in `advance_right`. -/
def advance_left (A : Arith) (x b : ℚ) : ℚ :=
  let x1 := A.f32 (A.f64 (x - A.f64 (b + 1/4)))
  if x1 < -30 then A.f32 (x1 + 50) else x1

/-- The first four statements of `timer_callback` : the obstacles move along X. -/
def timer_positions (A : Arith) (s : GameState) : GameState :=
  let s0 := { s with obj0 := s.obj0.setX (advance_right A s.obj0.tr.translation.x s.a) }
  let s3 := { s0 with obj3 := s0.obj3.setX (advance_left A s0.obj3.tr.translation.x s0.b) }
  let s5 := { s3 with obj5 := s3.obj5.setX (advance_right A s3.obj5.tr.translation.x s3.c) }
  { s5 with obj4 := s5.obj4.setX (advance_left A s5.obj4.tr.translation.x s5.d) }

/-- The two GLUT calls that end `timer_callback`. -/
def timer_reschedule (s : GameState) : GameState :=
  { s with effects := s.effects ++
      [Effect.glutTimerFunc 25 Callback.timer_callback, Effect.glutPostRedisplay] }

/-- `timer_callback(int)`. -/
def timer_callback (A : Arith) (s : GameState) : GameState :=
  timer_reschedule (win (collision A (timer_positions A s)))

/-- `compteur(int)`. The arguments of `vec2` are `double` literals stored in floats. -/
def compteur (A : Arith) (s : GameState) : GameState :=
  if s.perdu = false then
    let s1 := { s with temps := s.temps + 1 }
    let s2 := { s1 with text2 := { s1.text0 with value := toString s1.temps,
                                                 bottomLeft := ⟨A.lit (7/10), A.lit (9/10)⟩,
                                                 topRight := ⟨1, A.lit (99/100)⟩ } }
    let s3 := { s2 with text4 := { s2.text0 with value := toString s2.score,
                                                 bottomLeft := ⟨A.lit (65/100), A.lit (8/10)⟩,
                                                 topRight := ⟨A.lit (95/100), A.lit (89/100)⟩ } }
    { s3 with effects := s3.effects ++
        [Effect.glutTimerFunc 1000 Callback.compteur, Effect.glutPostRedisplay] }
  else s

/-- `keyboard_callback(key, _, _)` : `none` when the process exits (`exit(0)`). The camera
moves by the float `d_angle = 1.0f`, in single precision. -/
def keyboard_callback (A : Arith) (key : Char) (s : GameState) : Option GameState :=
  let d_angle : ℚ := 1
  let camY := fun (y : ℚ) => { s with cam := { s.cam with tr := { s.cam.tr with
                translation := { s.cam.tr.translation with y := y } } } }
  let camX := fun (x : ℚ) => { s with cam := { s.cam with tr := { s.cam.tr with
                translation := { s.cam.tr.translation with x := x } } } }
  if key = 'p' then some { s with effects := s.effects ++ [Effect.print_screen] }
  else if key = 'q' ∨ key = 'Q' ∨ key = Char.ofNat 27 then none
  else if key = 'o' then some (camY (A.f32 (s.cam.tr.translation.y + d_angle)))
  else if key = 'l' then some (camY (A.f32 (s.cam.tr.translation.y - d_angle)))
  else if key = 'k' then some (camX (A.f32 (s.cam.tr.translation.x - d_angle)))
  else if key = 'm' then some (camX (A.f32 (s.cam.tr.translation.x + d_angle)))
  else some s

/-- The key code `GLUT_KEY_LEFT` of the GLUT header. -/
def GLUT_KEY_LEFT : Int := 100
/-- The key code `GLUT_KEY_UP` of the GLUT header. -/
def GLUT_KEY_UP : Int := 101
/-- The key code `GLUT_KEY_RIGHT` of the GLUT header. -/
def GLUT_KEY_RIGHT : Int := 102
/-- The key code `GLUT_KEY_DOWN` of the GLUT header. -/
def GLUT_KEY_DOWN : Int := 103

/-- `special_callback(key, _, _)`. The player moves by the float `dL = 1.5f`, in single
precision. -/
def special_callback (A : Arith) (key : Int) (s : GameState) : GameState :=
  let dL : ℚ := 3/2
  if key = GLUT_KEY_UP then
    if s.obj2.tr.translation.z > -20 then
      { s with obj2 := s.obj2.setZ (A.f32 (s.obj2.tr.translation.z - dL)) }
    else s
  else if key = GLUT_KEY_DOWN then
    { s with obj2 := s.obj2.setZ (A.f32 (s.obj2.tr.translation.z + dL)) }
  else if key = GLUT_KEY_LEFT then
    if s.obj2.tr.translation.x > -20 then
      { s with obj2 := s.obj2.setX (A.f32 (s.obj2.tr.translation.x - dL)) }
    else s
  else if key = GLUT_KEY_RIGHT then
    if s.obj2.tr.translation.x < 20 then
      { s with obj2 := s.obj2.setX (A.f32 (s.obj2.tr.translation.x + dL)) }
    else s
  else s

/-- The events that the GLUT main loop delivers to the callbacks registered in `main`. -/
inductive Event where
  | timer
  | compteur
  | keyboard (key : Char)
  | special (key : Int)
deriving DecidableEq

/-- One event handled by its callback; `none` when the process has exited. -/
def step (A : Arith) (e : Event) (s : GameState) : Option GameState :=
  match e with
  | Event.timer => some (timer_callback A s)
  | Event.compteur => some (compteur A s)
  | Event.keyboard key => keyboard_callback A key s
  | Event.special key => some (special_callback A key s)

/-- A sequence of events handled in order; `none` once the process has exited. -/
def run (A : Arith) : List Event → GameState → Option GameState
  | [], s => some s
  | e :: es, s =>
    match step A e s with
    | some s1 => run A es s1
    | none => none

/-- A keyboard event that makes `keyboard_callback` call `exit(0)`. -/
def Event.isExit : Event → Bool
  | Event.keyboard key => decide (key = 'q' ∨ key = 'Q' ∨ key = Char.ofNat 27)
  | _ => false

/-- `n` calls of `timer_callback` in a row. -/
def ticks (A : Arith) : Nat → GameState → GameState
  | 0, s => s
  | n + 1, s => ticks A n (timer_callback A s)

/-- A sequence of arrow keys handled in order by `special_callback`. -/
def arrows (A : Arith) (keys : List Int) (s : GameState) : GameState :=
  keys.foldl (fun st k => special_callback A k st) s

/-- What `init` obtains from the graphics API and from the mesh files. -/
structure Assets where
  shader_program_id : Nat
  gui_program_id : Nat
  stegosaurus_vao : Nat
  stegosaurus_triangles : Nat
  ground_vao : Nat
  stickman_vao : Nat
  stickman_triangles : Nat
  text_vao : Nat

/-- `init_model_1()` : the stegosaurus `obj[0]` and its copies `obj[3]`, `obj[4]`, `obj[5]`.
The literal `1.6f` is rounded to single precision. -/
def init_model_1 (A : Arith) (g : Assets) (s : GameState) : GameState :=
  let r := load_texture "data/stegosaurus.tga" s
  let s1 := r.2
  let o0 : objet3d :=
    { vao := g.stegosaurus_vao, nb_triangle := g.stegosaurus_triangles,
      texture_id := r.1, prog := g.shader_program_id, visible := true,
      tr := { translation := ⟨-15, 0, 10⟩, rotation_center := ⟨0, 0, 0⟩,
              rotation_euler := ⟨0, A.f32 (16/10), 0⟩ } }
  { s1 with
    obj0 := o0,
    obj3 := { o0 with tr := { o0.tr with translation := ⟨30, 0, 1⟩,
                                         rotation_euler := ⟨0, -A.f32 (16/10), 0⟩ } },
    obj4 := { o0 with tr := { o0.tr with translation := ⟨30, 0, -5⟩,
                                         rotation_euler := ⟨0, -A.f32 (16/10), 0⟩ } },
    obj5 := { o0 with tr := { o0.tr with translation := ⟨-30, 0, 17⟩ } } }

/-- `init_model_2()` : the ground `obj[1]`. -/
def init_model_2 (g : Assets) (s : GameState) : GameState :=
  let r := load_texture "data/route1.tga" s
  let s1 := r.2
  { s1 with obj1 := { s1.obj1 with nb_triangle := 2, vao := g.ground_vao,
                                   texture_id := r.1, visible := true,
                                   prog := g.shader_program_id } }

/-- `init_model_3()` : the player `obj[2]`. -/
def init_model_3 (g : Assets) (s : GameState) : GameState :=
  let r := load_texture "data/white.tga" s
  let s1 := r.2
  { s1 with obj2 := { s1.obj2 with vao := g.stickman_vao,
                                   nb_triangle := g.stickman_triangles,
                                   texture_id := r.1, visible := true,
                                   prog := g.shader_program_id,
                                   tr := { s1.obj2.tr with translation := ⟨0, 0, -15⟩ } } }

/-- `init_text(text_to_draw)` : the first label gets its quad, font and program. -/
def init_text (g : Assets) (s : GameState) : GameState :=
  let r := load_texture "data/fontB.tga" s
  let s1 := r.2
  { s1 with text0 := { s1.text0 with vao := g.text_vao, texture_id := r.1,
                                     visible := true, prog := g.gui_program_id } }

/-- `init()` : run once by `main` before the main loop, on the globals as they are at
program start (`M_PI/2.` stored in a float is 13176795 / 2^23). -/
def init (A : Arith) (g : Assets) (s : GameState) : GameState :=
  let s1 := { s with cam := { tr := { translation := ⟨0, 40, 0⟩,
                                      rotation_center := ⟨0, 40, 0⟩,
                                      rotation_euler := ⟨13176795/8388608, 0, 0⟩ } } }
  let s2 := init_model_3 g (init_model_2 g (init_model_1 A g s1))
  let s3 := { s2 with text0 := { s2.text0 with value := "Timer",
                                               bottomLeft := ⟨A.lit (2/10), A.lit (92/100)⟩,
                                               topRight := ⟨A.lit (7/10), A.lit (13/10)⟩ } }
  let s4 := init_text g s3
  { s4 with text1 := { s4.text0 with value := "Score",
                                     bottomLeft := ⟨s4.text0.bottomLeft.x, A.f32 (8/10)⟩,
                                     topRight := ⟨s4.text0.topRight.x, A.f32 (12/10)⟩ } }

/-- The globals at program start, before `init` : zero-initialised storage, and the
static initialisers `temps = 0`, `score = 0`, `perdu = false`; `a0 .. d0` are the four
values drawn from `rand()`. -/
def startState (a0 b0 c0 d0 : ℚ) : GameState :=
  let v0 : vec3 := ⟨0, 0, 0⟩
  let t0 : transformation := ⟨v0, v0, v0⟩
  let o : objet3d := ⟨0, 0, 0, 0, false, t0⟩
  let l : text := ⟨0, 0, 0, false, "", ⟨0, 0⟩, ⟨0, 0⟩⟩
  { obj0 := o, obj1 := o, obj2 := o, obj3 := o, obj4 := o, obj5 := o,
    text0 := l, text1 := l, text2 := l, text3 := l, text4 := l,
    cam := ⟨t0⟩, temps := 0, score := 0, perdu := false,
    a := a0, b := b0, c := c0, d := d0, glNextTexture := 1, effects := [] }

/-- A fixed set of handles, for worked examples. -/
def sampleAssets : Assets := ⟨1, 2, 1, 100, 2, 3, 50, 4⟩

/-- The state after `init` in the arithmetic of the program, with all four random draws
equal to 1/2, for worked examples. -/
def sampleInit : GameState := init ieee sampleAssets (startState (1/2) (1/2) (1/2) (1/2))

/-- The three `ofs << (int) pixels[3*(x+(h-y-1)*w)+k] << " "` statements of the inner loop
of `glhelper::print_screen`; `ofs` is the text written so far. -/
def print_screen_pixel (w h : Nat) (pixels : List Nat) (y : Nat) (ofs : String) (x : Nat) :
    String :=
  let ofs1 := ofs ++ toString (pixels.getD (3 * (x + (h - y - 1) * w) + 0) 0) ++ " "
  let ofs2 := ofs1 ++ toString (pixels.getD (3 * (x + (h - y - 1) * w) + 1) 0) ++ " "
  ofs2 ++ toString (pixels.getD (3 * (x + (h - y - 1) * w) + 2) 0) ++ " "

/-- The body of the outer loop of `glhelper::print_screen` : the inner loop over `x`, then
`ofs << "\n"`. -/
def print_screen_row (w h : Nat) (pixels : List Nat) (ofs : String) (y : Nat) : String :=
  (List.range w).foldl (print_screen_pixel w h pixels y) ofs ++ "\n"

/-- The text that `glhelper::print_screen` writes to the opened file, for the viewport size
`w`, `h` and the bytes `pixels` that `glReadPixels` returned (nothing is written when the
file cannot be opened). -/
def print_screen_text (w h : Nat) (pixels : List Nat) : String :=
  let ofs := "P3\n" ++ toString w ++ " " ++ toString h ++ "\n255\n"
  (List.range h).foldl (print_screen_row w h pixels) ofs

/-- PPM header `P3\n<w> <h>\n255\n`, as the specification words it. -/
def ppm_header (w h : Nat) : String :=
  "P3\n" ++ toString w ++ " " ++ toString h ++ "\n255\n"

/-- Row `r` of a framebuffer of rows of `w` RGB pixels, stored one row after the other
with the bottom row first : its `3 * w` bytes. -/
def framebuffer_row (w : Nat) (fb : List Nat) (r : Nat) : List Nat :=
  (fb.drop (3 * w * r)).take (3 * w)

/-- Colour components written in decimal, each followed by one space. -/
def ppm_components (bytes : List Nat) : String :=
  String.join (bytes.map fun v => toString v ++ " ")

/-- One line of the PPM body, as the specification words it : every component in decimal
followed by one space, then a line feed. -/
def ppm_line (bytes : List Nat) : String :=
  ppm_components bytes ++ "\n"

/-- The PPM text as the specification words it : the header, then `h` lines, line `y`
holding framebuffer row `h - 1 - y`. -/
def ppm_flipped (w h : Nat) (fb : List Nat) : String :=
  ppm_header w h ++
    String.join ((List.range h).map fun y => ppm_line (framebuffer_row w fb (h - 1 - y)))

/-- A framebuffer of `n` pixels that all have the colour `(r, g, b)`. -/
def solid (n r g b : Nat) : List Nat :=
  (List.replicate n [r, g, b]).flatten

/-- The PPM text of a `w` by `h` picture in which every triplet is `(r, g, b)`. -/
def ppm_solid (w h r g b : Nat) : String :=
  ppm_header w h ++
    String.join (List.replicate h
      (String.join (List.replicate w
        (toString r ++ " " ++ toString g ++ " " ++ toString b ++ " ")) ++ "\n"))


/-- The constant `std::string::npos` : the largest value of the 64-bit `size_t`. -/
def npos : Nat := 2 ^ 64 - 1

/-- The call `s.find_last_of(c)` of the standard library for a single character : the index
of the last occurrence of `c` in `s`, or `npos` when there is none. -/
def find_last_of (s : List Char) (c : Char) : Nat :=
  if c ∈ s then s.length - 1 - s.reverse.indexOf c else npos

/-- The call `s.substr(pos)` of the standard library, for `pos` not beyond the end of `s` :
the characters from index `pos` on. -/
def substr (s : List Char) (pos : Nat) : List Char :=
  s.drop pos

/-- The statement `if(filename.substr(filename.find_last_of(".")+1) != "ppm")
filename += ".ppm";` of `glhelper::print_screen` : the new value of `filename`. The sum
`find_last_of(".") + 1` is computed in `size_t`, modulo `2 ^ 64`. -/
def print_screen_extension (filename : String) : String :=
  if String.mk (substr filename.data ((find_last_of filename.data '.' + 1) % 2 ^ 64)) ≠ "ppm"
  then filename ++ ".ppm"
  else filename

/-- The path that `glhelper::print_screen(filename)` opens for writing; `timestamp` is the
text that `strftime` produces when `filename` is empty. -/
def print_screen_path (timestamp filename : String) : String :=
  print_screen_extension (if filename = "" then timestamp else filename)

/-- A file name ends with the extension `.ppm`. -/
def ends_with_ppm (filename : String) : Prop :=
  ".ppm".data <:+ filename.data

instance (filename : String) : Decidable (ends_with_ppm filename) := by
  unfold ends_with_ppm; infer_instance

/-- Number of obstacles of `NumeroDinosaure` that pass the test of `collision`. -/
def hitCount (A : Arith) (s : GameState) : Nat :=
  (NumeroDinosaure.filter fun n => decide (collision_test A s n)).length

/-- The state `sampleInit` with the player moved to `(x, 0, z)`, for worked examples. -/
def playerAt (x z : ℚ) : GameState :=
  { sampleInit with obj2 := (sampleInit.obj2.setX x).setZ z }

/-- The state `sampleInit` with the player at `(x, 0, z)` and `obj[0]` at `(x0, 0, z0)`. -/
def facing (x z x0 z0 : ℚ) : GameState :=
  { playerAt x z with obj0 := ((playerAt x z).obj0.setX x0).setZ z0 }

/-- The state `playerAt 0 0` with `obj[0]` and `obj[3]` both moved onto the player. -/
def twoOnPlayer : GameState :=
  { playerAt 0 0 with obj0 := ((playerAt 0 0).obj0.setX 0).setZ 0,
                      obj3 := ((playerAt 0 0).obj3.setX 0).setZ 0 }

/-- A state where the rounding decides : the player at X = 4.5 and `obj[0]` at the float
X = -0.49999997 (that is -16777215 / 2^25), on the same Z. The real difference is below 5
by 2^-25 and the float difference is 5. -/
def nearMiss : GameState := facing (9/2) 0 (-16777215/33554432) 0

/-- A play from `sampleInit` : six DOWN keys bring the player to Z = -6, after 34 update
ticks `obj[4]` (Z = -5) has come to X = 4.5 and catches the player, then twenty DOWN keys
bring the (hidden) player to Z = 24. -/
def lostTrace : List Event :=
  List.replicate 6 (Event.special GLUT_KEY_DOWN) ++ List.replicate 34 Event.timer ++
    List.replicate 20 (Event.special GLUT_KEY_DOWN)

/-- The state `playerAt x z` once the game is lost. -/
def lostAt (x z : ℚ) : GameState :=
  { playerAt x z with perdu := true }

/-- A mixed sequence of events without an exit key, for worked examples. -/
def mixedEvents : List Event :=
  [Event.timer, Event.compteur, Event.keyboard 'p', Event.keyboard 'o',
   Event.special GLUT_KEY_DOWN, Event.special GLUT_KEY_LEFT, Event.keyboard 'x', Event.timer]

/-- The abscissa of an object lies in the track `[-30, 30]`. -/
def inTrack (o : objet3d) : Prop :=
  -30 ≤ o.tr.translation.x ∧ o.tr.translation.x ≤ 30

/-- The four random draws of a state lie in `[0, 1]`, as `rand()/RAND_MAX` does. -/
def drawsInUnit (s : GameState) : Prop :=
  (0 ≤ s.a ∧ s.a ≤ 1) ∧ (0 ≤ s.b ∧ s.b ≤ 1) ∧ (0 ≤ s.c ∧ s.c ≤ 1) ∧ (0 ≤ s.d ∧ s.d ≤ 1)

/-- The state `s` with the player moved to the abscissa `x` and the depth `z`, everything
else as in `s`. -/
def GameState.withPlayer (s : GameState) (x z : ℚ) : GameState :=
  { s with obj2 := (s.obj2.setX x).setZ z }

/-- The player stands in the box that the arrow keys keep : X in `[-21.5, 21.5]` and Z in
`[-21.5, 2 ^ 25]`. -/
def inBox (s : GameState) : Prop :=
  (-43/2 ≤ s.obj2.tr.translation.x ∧ s.obj2.tr.translation.x ≤ 43/2) ∧
  (-43/2 ≤ s.obj2.tr.translation.z ∧ s.obj2.tr.translation.z ≤ 33554432)

/-- In the update tick that starts from `s`, `collision()` finds an obstacle within the
thresholds (the test is made after the obstacles have moved). -/
def tickHits (A : Arith) (s : GameState) : Prop :=
  ∃ n ∈ NumeroDinosaure, collision_test A (timer_positions A s) n

instance (A : Arith) (s : GameState) : Decidable (tickHits A s) := by
  unfold tickHits; infer_instance

/-- In the update tick that starts from `s`, the test of `win()` passes : the player's Z
exceeds 22 when `win()` is called. -/
def tickCrosses (A : Arith) (s : GameState) : Prop :=
  (collision A (timer_positions A s)).obj2.tr.translation.z > 22

instance (A : Arith) (s : GameState) : Decidable (tickCrosses A s) := by
  unfold tickCrosses; infer_instance

/-- Number of update ticks, in a sequence of events handled from `s`, at which the player's
Z exceeds 22. -/
def crossings (A : Arith) : List Event → GameState → Nat
  | [], _ => 0
  | e :: es, s =>
    (if e = Event.timer ∧ tickCrosses A s then 1 else 0) +
      match step A e s with
      | some s1 => crossings A es s1
      | none => 0

/-- No update tick, in a sequence of events handled from `s`, finds an obstacle within the
thresholds. -/
def hitFree (A : Arith) : List Event → GameState → Bool
  | [], _ => true
  | e :: es, s =>
    !decide (e = Event.timer ∧ tickHits A s) &&
      match step A e s with
      | some s1 => hitFree A es s1
      | none => true

/-- A start state for a worked play : `sampleInit` with `obj[0]` put at (-3, 0, -15), on the
player's row. -/
def playStart : GameState := facing 0 (-15) (-3) (-15)

/-- A worked play : three times, 25 DOWN keys (Z goes from -15 to 22.5) and one update
tick. -/
def threeCrossings : List Event :=
  List.replicate 25 (Event.special GLUT_KEY_DOWN) ++ [Event.timer] ++
  List.replicate 25 (Event.special GLUT_KEY_DOWN) ++ [Event.timer] ++
  List.replicate 25 (Event.special GLUT_KEY_DOWN) ++ [Event.timer]

/-- The state that the worked play `threeCrossings` reaches from `playStart`, in the
arithmetic of the program. -/
def playEnd : GameState := (run ieee threeCrossings playStart).getD playStart

/-- A 2 by 2 framebuffer for worked examples : bottom row red, green; top row blue, white. -/
def sampleFramebuffer : List Nat :=
  [255, 0, 0, 0, 255, 0, 0, 0, 255, 255, 255, 255]

/-- Conversion of a float to `int` (truncation toward zero) : what `abs` would see if the
call in `collision` resolved to the C function `int abs(int)`. -/
def float_to_int (q : ℚ) : ℤ :=
  if 0 ≤ q then ⌊q⌋ else ⌈q⌉

/-- The state `s` with the flag `perdu` and the six visibility flags replaced. -/
def GameState.setFlags (s : GameState) (p v0 v1 v2 v3 v4 v5 : Bool) : GameState :=
  { s with perdu := p,
           obj0 := { s.obj0 with visible := v0 }, obj1 := { s.obj1 with visible := v1 },
           obj2 := { s.obj2 with visible := v2 }, obj3 := { s.obj3 with visible := v3 },
           obj4 := { s.obj4 with visible := v4 }, obj5 := { s.obj5 with visible := v5 } }

/-- The state `sampleInit` in play with `temps = 41` and `score = 7`, for worked examples. -/
def midGame : GameState :=
  { sampleInit with temps := 41, score := 7 }

/-- The state `sampleInit` with `obj[0]` and `obj[3]` at X = 29, X = -29 and the draws
`a = b = 0.75 + 2^-21` : the sums 30 + 2^-21 and -30 - 2^-21 are stored as the floats 30
and -30, so that neither obstacle wraps. -/
def atTrackEnd : GameState :=
  { sampleInit with obj0 := sampleInit.obj0.setX 29, obj3 := sampleInit.obj3.setX (-29),
                    a := 3/4 + 1/2097152, b := 3/4 + 1/2097152 }

/-- The state `s` with the positions of the player and of `obj[0]` exchanged. -/
def swapPlayerObj0 (s : GameState) : GameState :=
  { s with obj2 := { s.obj2 with tr := { s.obj2.tr with translation := s.obj0.tr.translation } },
           obj0 := { s.obj0 with tr := { s.obj0.tr with translation := s.obj2.tr.translation } } }

/-- The X offset `obj[2].x - obj[n].x` of the player to the obstacle `obj[n]`. -/
def offsetX (s : GameState) (n : Nat) : ℚ :=
  s.obj2.tr.translation.x - (s.obj n).tr.translation.x

/-- The Z offset `obj[2].z - obj[n].z` of the player to the obstacle `obj[n]`. -/
def offsetZ (s : GameState) (n : Nat) : ℚ :=
  s.obj2.tr.translation.z - (s.obj n).tr.translation.z

/-- The Z translations of the four obstacles `obj[0]`, `obj[3]`, `obj[4]`, `obj[5]`. -/
def obstacleZ (s : GameState) : ℚ × ℚ × ℚ × ℚ :=
  (s.obj0.tr.translation.z, s.obj3.tr.translation.z, s.obj4.tr.translation.z,
   s.obj5.tr.translation.z)

/-- The state that the worked play `threeCrossings` reaches from `sampleInit` : the player
has just been sent back to Z = -15 for the third time. -/
def respawned : GameState := (run ieee threeCrossings sampleInit).getD sampleInit

/-- A state where the rounding decides the wrap : `sampleInit` with the draw
`c = 0.75 + 2^-21`, `obj[5]` at (29, 0, 23) and the player at (26, 0, 23). The sum
30 + 2^-21 is stored as the float 30, `obj[5]` does not wrap and catches the player. -/
def atWrapEdge : GameState :=
  { sampleInit with obj5 := (sampleInit.obj5.setX 29).setZ 23,
                    obj2 := (sampleInit.obj2.setX 26).setZ 23,
                    c := 3/4 + 1/2097152 }

/-- The state `sampleInit` with the draw `a` equal to the float 0.1 (13421773 / 2^27). -/
def tenthDraw : GameState :=
  { sampleInit with a := 13421773/134217728 }

/-- The largest finite binary32 number, `FLT_MAX = 2^128 - 2^104`. -/
def flt_max : ℚ := 340282346638528859811704183484516925440

/-! ## Theorems -/

/-! ## The rounding `roundTo` : monotone, odd, exact on the numbers of the format -/

theorem log2Aux_spec (fuel n : ℕ) (hf : n ≤ fuel) (hn : n ≠ 0) :
    2 ^ log2Aux fuel n ≤ n ∧ n < 2 ^ (log2Aux fuel n + 1) := by
  induction fuel generalizing n with
  | zero => omega
  | succ f ih =>
    unfold log2Aux
    split_ifs with h
    · simp; omega
    · have h2 := ih (n / 2) (by omega) (by omega)
      rw [pow_succ, pow_succ]
      rw [pow_succ] at h2
      omega

theorem ilog2_spec (q : ℚ) (hq : 0 < q) :
    (2 : ℚ) ^ ilog2 q ≤ q ∧ q < (2 : ℚ) ^ (ilog2 q + 1) := by
  have hnum : 0 < q.num := Rat.num_pos.mpr hq
  have hden : 0 < q.den := q.den_pos
  obtain ⟨a1, a2⟩ := log2Aux_spec q.num.natAbs q.num.natAbs le_rfl (by omega)
  obtain ⟨b1, b2⟩ := log2Aux_spec q.den q.den le_rfl (by omega)
  set a := log2Aux q.num.natAbs q.num.natAbs with ha
  set b := log2Aux q.den q.den with hb
  have hqe : q = (q.num.natAbs : ℚ) / (q.den : ℚ) := by
    have h1 : ((q.num.natAbs : ℤ) : ℚ) = (q.num : ℚ) := by
      rw [Int.natAbs_of_nonneg hnum.le]
    have h2 : ((q.num.natAbs : ℕ) : ℚ) = ((q.num.natAbs : ℤ) : ℚ) := (Int.cast_natCast _).symm
    rw [h2, h1, Rat.num_div_den]
  have hd0 : (0 : ℚ) < q.den := by exact_mod_cast hden
  have A1 : ((2 : ℚ) ^ a) ≤ (q.num.natAbs : ℚ) := by exact_mod_cast a1
  have A2 : (q.num.natAbs : ℚ) < (2 : ℚ) ^ (a + 1) := by exact_mod_cast a2
  have B1 : ((2 : ℚ) ^ b) ≤ (q.den : ℚ) := by exact_mod_cast b1
  have B2 : (q.den : ℚ) < (2 : ℚ) ^ (b + 1) := by exact_mod_cast b2
  have hk : ilog2 q = if (2 : ℚ) ^ ((a : ℤ) - b) ≤ q then (a : ℤ) - b else (a : ℤ) - b - 1 := rfl
  have h2pos : ∀ z : ℤ, (0 : ℚ) < (2 : ℚ) ^ z := fun z => zpow_pos (by norm_num) z
  -- upper and lower estimates of q
  have up : q < (2 : ℚ) ^ ((a : ℤ) - b + 1) := by
    have e : (2 : ℚ) ^ ((a : ℤ) - b + 1) = (2 : ℚ) ^ (a + 1) / (2 : ℚ) ^ b := by
      rw [show ((a : ℤ) - b + 1) = ((a + 1 : ℕ) : ℤ) - (b : ℤ) by push_cast; ring,
        zpow_sub₀ (by norm_num), zpow_natCast, zpow_natCast]
    rw [e, hqe, div_lt_div_iff₀ hd0 (pow_pos (by norm_num) b)]
    calc (q.num.natAbs : ℚ) * 2 ^ b < 2 ^ (a + 1) * 2 ^ b := by
          apply mul_lt_mul_of_pos_right A2 (pow_pos (by norm_num) b)
      _ ≤ 2 ^ (a + 1) * q.den := by
          apply mul_le_mul_of_nonneg_left B1 (by positivity)
  have low : (2 : ℚ) ^ ((a : ℤ) - b - 1) ≤ q := by
    have e : (2 : ℚ) ^ ((a : ℤ) - b - 1) = (2 : ℚ) ^ a / (2 : ℚ) ^ (b + 1) := by
      rw [show ((a : ℤ) - b - 1) = ((a : ℕ) : ℤ) - ((b + 1 : ℕ) : ℤ) by push_cast; ring,
        zpow_sub₀ (by norm_num), zpow_natCast, zpow_natCast]
    rw [e, hqe, div_le_div_iff₀ (pow_pos (by norm_num) (b + 1)) hd0]
    calc (2 : ℚ) ^ a * q.den ≤ q.num.natAbs * q.den := by
          apply mul_le_mul_of_nonneg_right A1 hd0.le
      _ ≤ q.num.natAbs * 2 ^ (b + 1) := by
          apply mul_le_mul_of_nonneg_left B2.le (by positivity)
  rw [hk]
  split_ifs with h
  · exact ⟨h, up⟩
  · refine ⟨low, ?_⟩
    rw [show ((a : ℤ) - b - 1 + 1) = (a : ℤ) - b by ring]
    exact not_le.mp h

theorem ilog2_eq_log (q : ℚ) (hq : 0 < q) : ilog2 q = Int.log 2 q := by
  obtain ⟨h1, h2⟩ := ilog2_spec q hq
  have l1 : ilog2 q ≤ Int.log 2 q :=
    (Int.zpow_le_iff_le_log (by norm_num) hq).mp (by exact_mod_cast h1)
  have l2 : Int.log 2 q < ilog2 q + 1 :=
    (Int.lt_zpow_iff_log_lt (by norm_num) hq).mp (by exact_mod_cast h2)
  omega



theorem rne_bounds (x : ℚ) : ⌊x⌋ ≤ rne x ∧ rne x ≤ ⌊x⌋ + 1 := by
  unfold rne
  split_ifs <;> omega

theorem rne_intCast (n : ℤ) : rne (n : ℚ) = n := by
  unfold rne
  simp

theorem rne_mono {x y : ℚ} (h : x ≤ y) : rne x ≤ rne y := by
  have hf : ⌊x⌋ ≤ ⌊y⌋ := Int.floor_le_floor h
  by_cases hlt : ⌊x⌋ < ⌊y⌋
  · have := (rne_bounds x).2
    have := (rne_bounds y).1
    omega
  · have he : ⌊x⌋ = ⌊y⌋ := by omega
    unfold rne
    rw [he]
    split_ifs <;> first | omega | (exfalso; linarith)

theorem rne_le_of_le {x : ℚ} {n : ℤ} (h : x ≤ n) : rne x ≤ n := by
  have := rne_mono h
  rwa [rne_intCast] at this

theorem le_rne_of_le {x : ℚ} {n : ℤ} (h : (n : ℚ) ≤ x) : n ≤ rne x := by
  have := rne_mono h
  rwa [rne_intCast] at this

theorem two_zpow_pos (z : ℤ) : (0 : ℚ) < (2 : ℚ) ^ z := zpow_pos (by norm_num) z

theorem ulpExp_mono (p : ℕ) (emin : ℤ) {x y : ℚ} (hx : 0 < x) (h : x ≤ y) :
    ulpExp p emin x ≤ ulpExp p emin y := by
  unfold ulpExp
  rw [ilog2_eq_log x hx, ilog2_eq_log y (lt_of_lt_of_le hx h)]
  have := Int.log_mono_right (b := 2) hx h
  exact max_le_max (by omega) le_rfl

theorem roundPos_nonneg (p : ℕ) (emin : ℤ) {q : ℚ} (hq : 0 < q) : 0 ≤ roundPos p emin q := by
  unfold roundPos
  have h0 : (0 : ℤ) ≤ rne (q / 2 ^ ulpExp p emin q) :=
    le_rne_of_le (by simpa using (div_pos hq (two_zpow_pos _)).le)
  exact mul_nonneg (by exact_mod_cast h0) (two_zpow_pos _).le

theorem roundPos_le_pow (p : ℕ) (emin : ℤ) {q : ℚ} (hq : 0 < q) :
    roundPos p emin q ≤ (2 : ℚ) ^ (ulpExp p emin q + p) := by
  unfold roundPos
  have hlt : q < (2 : ℚ) ^ (ulpExp p emin q + p) := by
    have h1 := (ilog2_spec q hq).2
    refine lt_of_lt_of_le h1 (zpow_le_zpow_right₀ (by norm_num) ?_)
    have : ilog2 q - (p - 1) ≤ ulpExp p emin q := le_max_left _ _
    omega
  have hdiv : q / 2 ^ ulpExp p emin q ≤ (((2 : ℤ) ^ p : ℤ) : ℚ) := by
    rw [div_le_iff₀ (two_zpow_pos _)]
    push_cast
    rw [← zpow_natCast, ← zpow_add₀ (by norm_num), add_comm]
    exact hlt.le
  have h2 : (rne (q / 2 ^ ulpExp p emin q) : ℚ) ≤ (2 : ℚ) ^ (p : ℤ) := by
    have := rne_le_of_le hdiv
    have h3 : ((rne (q / 2 ^ ulpExp p emin q) : ℤ) : ℚ) ≤ (((2 : ℤ) ^ p : ℤ) : ℚ) := by
      exact_mod_cast this
    simpa using h3
  calc (rne (q / 2 ^ ulpExp p emin q) : ℚ) * 2 ^ ulpExp p emin q
      ≤ (2 : ℚ) ^ (p : ℤ) * 2 ^ ulpExp p emin q :=
        mul_le_mul_of_nonneg_right h2 (two_zpow_pos _).le
    _ = (2 : ℚ) ^ (ulpExp p emin q + p) := by
        rw [← zpow_add₀ (by norm_num), add_comm]

theorem pow_le_roundPos (p : ℕ) (emin : ℤ) (hp : 1 ≤ p) {q : ℚ} (hq : 0 < q)
    (he : emin < ulpExp p emin q) :
    (2 : ℚ) ^ (ulpExp p emin q + p - 1) ≤ roundPos p emin q := by
  have heq : ulpExp p emin q = ilog2 q - (p - 1) := by
    unfold ulpExp at he ⊢
    rcases max_cases (ilog2 q - (p - 1)) emin with ⟨h1, _⟩ | ⟨h1, _⟩
    · exact h1
    · rw [h1] at he; omega
  have hle : (2 : ℚ) ^ (ulpExp p emin q + p - 1) ≤ q := by
    rw [heq, show ilog2 q - ((p : ℤ) - 1) + p - 1 = ilog2 q by ring]
    exact (ilog2_spec q hq).1
  unfold roundPos
  obtain ⟨k, hk⟩ : ∃ k : ℕ, p = k + 1 := ⟨p - 1, by omega⟩
  have hdiv : (((2 : ℤ) ^ k : ℤ) : ℚ) ≤ q / 2 ^ ulpExp p emin q := by
    rw [le_div_iff₀ (two_zpow_pos _)]
    push_cast
    rw [← zpow_natCast, ← zpow_add₀ (by norm_num)]
    rw [show (k : ℤ) + ulpExp p emin q = ulpExp p emin q + p - 1 by rw [hk]; push_cast; ring]
    exact hle
  have h2 : (2 : ℚ) ^ (k : ℤ) ≤ (rne (q / 2 ^ ulpExp p emin q) : ℚ) := by
    have := le_rne_of_le hdiv
    have h3 : (((2 : ℤ) ^ k : ℤ) : ℚ) ≤ ((rne (q / 2 ^ ulpExp p emin q) : ℤ) : ℚ) := by
      exact_mod_cast this
    simpa using h3
  calc (2 : ℚ) ^ (ulpExp p emin q + p - 1)
      = (2 : ℚ) ^ (k : ℤ) * 2 ^ ulpExp p emin q := by
        rw [← zpow_add₀ (by norm_num)]
        congr 1
        rw [hk]; push_cast; ring
    _ ≤ (rne (q / 2 ^ ulpExp p emin q) : ℚ) * 2 ^ ulpExp p emin q :=
        mul_le_mul_of_nonneg_right h2 (two_zpow_pos _).le

theorem roundPos_mono (p : ℕ) (emin : ℤ) (hp : 1 ≤ p) {x y : ℚ} (hx : 0 < x) (h : x ≤ y) :
    roundPos p emin x ≤ roundPos p emin y := by
  have hy : 0 < y := lt_of_lt_of_le hx h
  have he := ulpExp_mono p emin hx h
  rcases eq_or_lt_of_le he with heq | hlt
  · unfold roundPos
    rw [heq]
    apply mul_le_mul_of_nonneg_right _ (two_zpow_pos _).le
    have : x / 2 ^ ulpExp p emin y ≤ y / 2 ^ ulpExp p emin y :=
      div_le_div_of_nonneg_right h (two_zpow_pos _).le
    exact_mod_cast rne_mono this
  · have hmin : emin ≤ ulpExp p emin x := le_max_right _ _
    calc roundPos p emin x ≤ (2 : ℚ) ^ (ulpExp p emin x + p) := roundPos_le_pow p emin hx
      _ ≤ (2 : ℚ) ^ (ulpExp p emin y + p - 1) :=
          zpow_le_zpow_right₀ (by norm_num) (by omega)
      _ ≤ roundPos p emin y := pow_le_roundPos p emin hp hy (by omega)

theorem roundTo_neg (p : ℕ) (emin : ℤ) (q : ℚ) : roundTo p emin (-q) = -roundTo p emin q := by
  unfold roundTo
  rcases lt_trichotomy q 0 with h | h | h
  · have h1 : ¬ 0 < q := not_lt.mpr h.le
    simp [h, h1]
  · subst h; simp
  · have h1 : ¬ q < 0 := not_lt.mpr h.le
    simp [h, h1]

theorem roundTo_mono (p : ℕ) (emin : ℤ) (hp : 1 ≤ p) {x y : ℚ} (h : x ≤ y) :
    roundTo p emin x ≤ roundTo p emin y := by
  unfold roundTo
  rcases lt_trichotomy x 0 with hx | hx | hx
  · have hx1 : ¬ 0 < x := not_lt.mpr hx.le
    rw [if_neg hx1, if_pos hx]
    have hnx : 0 ≤ roundPos p emin (-x) := roundPos_nonneg p emin (by linarith)
    rcases lt_trichotomy y 0 with hy | hy | hy
    · have hy1 : ¬ 0 < y := not_lt.mpr hy.le
      rw [if_neg hy1, if_pos hy]
      have := roundPos_mono p emin hp (x := -y) (y := -x) (by linarith) (by linarith)
      linarith
    · subst hy; simp; exact hnx
    · rw [if_pos hy]
      have := roundPos_nonneg p emin hy
      linarith
  · subst hx
    simp only [lt_self_iff_false, if_false]
    rcases eq_or_lt_of_le h with hy | hy
    · rw [← hy]; simp
    · rw [if_pos hy]; exact roundPos_nonneg p emin hy
  · have hy : 0 < y := lt_of_lt_of_le hx h
    rw [if_pos hx, if_pos hy]
    exact roundPos_mono p emin hp hx h

theorem roundPos_fix (p : ℕ) (emin : ℤ) (m : ℤ) (e : ℤ) (hm0 : 0 < m) (hm : m < 2 ^ p)
    (he : emin ≤ e) : roundPos p emin (m * 2 ^ e) = m * 2 ^ e := by
  have hq : (0 : ℚ) < m * 2 ^ e := mul_pos (by exact_mod_cast hm0) (two_zpow_pos e)
  have hlt : (m : ℚ) * 2 ^ e < (2 : ℚ) ^ ((p : ℤ) + e) := by
    rw [zpow_add₀ (by norm_num), zpow_natCast]
    apply mul_lt_mul_of_pos_right _ (two_zpow_pos e)
    exact_mod_cast hm
  have hlog : ilog2 (m * 2 ^ e) < (p : ℤ) + e := by
    rw [ilog2_eq_log _ hq]
    exact (Int.lt_zpow_iff_log_lt (b := 2) (by norm_num) hq).mp (by exact_mod_cast hlt)
  have hu : ulpExp p emin (m * 2 ^ e) ≤ e := by
    unfold ulpExp
    exact max_le (by omega) he
  unfold roundPos
  obtain ⟨d, hd⟩ : ∃ d : ℕ, e = ulpExp p emin (m * 2 ^ e) + d :=
    ⟨(e - ulpExp p emin (m * 2 ^ e)).toNat, by omega⟩
  have hdiv : (m : ℚ) * 2 ^ e / 2 ^ ulpExp p emin (m * 2 ^ e) = ((m * 2 ^ d : ℤ) : ℚ) := by
    rw [div_eq_iff (two_zpow_pos _).ne']
    push_cast
    rw [mul_assoc, ← zpow_natCast, ← zpow_add₀ (by norm_num)]
    congr 2
    omega
  rw [hdiv, rne_intCast, ← hdiv, div_mul_cancel₀ _ (two_zpow_pos _).ne']

theorem roundTo_fix (p : ℕ) (emin : ℤ) (m : ℤ) (e : ℤ) (hm : |m| < 2 ^ p) (he : emin ≤ e) :
    roundTo p emin (m * 2 ^ e) = m * 2 ^ e := by
  rcases lt_trichotomy m 0 with h | h | h
  · have h1 : (m : ℚ) * 2 ^ e < 0 := mul_neg_of_neg_of_pos (by exact_mod_cast h) (two_zpow_pos e)
    unfold roundTo
    rw [if_neg (not_lt.mpr h1.le), if_pos h1]
    have e1 : -((m : ℚ) * 2 ^ e) = ((-m : ℤ) : ℚ) * 2 ^ e := by push_cast; ring
    rw [e1, roundPos_fix p emin (-m) e (by omega) (by rw [abs_of_neg h] at hm; exact hm) he]
    push_cast; ring
  · subst h; simp [roundTo]
  · have h1 : (0 : ℚ) < m * 2 ^ e := mul_pos (by exact_mod_cast h) (two_zpow_pos e)
    unfold roundTo
    rw [if_pos h1]
    exact roundPos_fix p emin m e h (by rw [abs_of_pos h] at hm; exact hm) he

/-! ## Lawful arithmetics -/

theorem quarter_eq (m : ℤ) : (m : ℚ) / 4 = (m : ℚ) * (2 : ℚ) ^ (-2 : ℤ) := by
  rw [zpow_neg, div_eq_mul_inv]
  norm_num

/-- The arithmetic of the program is lawful. -/
theorem ieee_lawful : ieee.Lawful where
  mono32 := fun _ _ h => roundTo_mono 24 (-149) (by norm_num) h
  odd32 := fun x => roundTo_neg 24 (-149) x
  fix32 := fun m hm => by
    show roundTo 24 (-149) ((m : ℚ) / 4) = (m : ℚ) / 4
    rw [quarter_eq]
    exact roundTo_fix 24 (-149) m (-2) hm (by norm_num)
  mono64 := fun _ _ h => roundTo_mono 53 (-1074) (by norm_num) h
  odd64 := fun x => roundTo_neg 53 (-1074) x
  fix64 := fun m hm => by
    show roundTo 53 (-1074) ((m : ℚ) / 4) = (m : ℚ) / 4
    rw [quarter_eq]
    exact roundTo_fix 53 (-1074) m (-2)
      (lt_trans hm (by norm_num)) (by norm_num)

/-- The arithmetic without rounding is lawful. -/
theorem exact_lawful : exact.Lawful where
  mono32 := fun _ _ h => h
  odd32 := fun _ => rfl
  fix32 := fun _ _ => rfl
  mono64 := fun _ _ h => h
  odd64 := fun _ => rfl
  fix64 := fun _ _ => rfl

theorem Arith.Lawful.f32_eq {A : Arith} (hA : A.Lawful) (m : ℤ) (q : ℚ) (hq : q = m / 4)
    (hm : |m| < 2 ^ 24) : A.f32 q = q := by
  rw [hq]; exact hA.fix32 m hm

theorem Arith.Lawful.f64_eq {A : Arith} (hA : A.Lawful) (m : ℤ) (q : ℚ) (hq : q = m / 4)
    (hm : |m| < 2 ^ 24) : A.f64 q = q := by
  rw [hq]; exact hA.fix64 m hm

theorem Arith.Lawful.f32_zero {A : Arith} (hA : A.Lawful) : A.f32 0 = 0 :=
  hA.f32_eq 0 0 (by norm_num) (by norm_num)

/-- A rounded difference below a threshold that the format holds comes from a real
difference below that threshold. -/
theorem Arith.Lawful.abs_lt_of_abs_f32_lt {A : Arith} (hA : A.Lawful) (c d : ℚ)
    (hc : A.f32 c = c) (h : |A.f32 d| < c) : |d| < c := by
  rw [abs_lt] at h ⊢
  constructor
  · by_contra hn
    have h1 : d ≤ -c := not_lt.mp hn
    have h2 := hA.mono32 d (-c) h1
    rw [hA.odd32, hc] at h2
    linarith [h.1]
  · by_contra hn
    have h1 : c ≤ d := not_lt.mp hn
    have h2 := hA.mono32 c d h1
    rw [hc] at h2
    linarith [h.2]

theorem Arith.Lawful.abs_f32_neg {A : Arith} (hA : A.Lawful) (d : ℚ) :
    |A.f32 (-d)| = |A.f32 d| := by
  rw [hA.odd32, abs_neg]

/-! ## Lemmas on `collision` -/

theorem collision_unfold (A : Arith) (s : GameState) :
    collision A s =
      collision_iter A (collision_iter A (collision_iter A (collision_iter A s 0) 1) 2) 3 :=
  rfl

@[simp] theorem collision_test_hit (A : Arith) (s : GameState) (n : Nat) :
    collision_test A (collision_hit A s) n ↔ collision_test A s n := by
  unfold collision_test collision_hit load_texture GameState.obj
  split <;> rfl

theorem collision_eq_iterate (A : Arith) (s : GameState) :
    collision A s = (collision_hit A)^[hitCount A s] s := by
  rw [collision_unfold]
  by_cases h0 : collision_test A s 0 <;> by_cases h3 : collision_test A s 3 <;>
    by_cases h4 : collision_test A s 4 <;> by_cases h5 : collision_test A s 5 <;>
    simp [collision_iter, NumeroDinosaure, hitCount, List.filter, h0, h3, h4, h5]

theorem collision_hit_iterate (A : Arith) (s : GameState) (k : Nat) :
    (collision_hit A)^[k + 1] s =
      { s with
        glNextTexture := s.glNextTexture + (k + 1),
        effects := s.effects ++ List.replicate (k + 1) (Effect.load_texture "data/natani.tga"),
        obj1 := { s.obj1 with texture_id := s.glNextTexture + k },
        obj0 := { s.obj0 with visible := false },
        obj3 := { s.obj3 with visible := false },
        obj2 := { s.obj2 with visible := false },
        obj4 := { s.obj4 with visible := false },
        obj5 := { s.obj5 with visible := false },
        text3 := { s.text0 with value := "T'es mauvais Jack",
                                bottomLeft := ⟨A.f32 (-A.f64 (9/10)), A.f32 (-A.f64 (9/10))⟩,
                                topRight := ⟨A.lit (9/10), A.lit (9/10)⟩ },
        perdu := true } := by
  induction k with
  | zero => simp [collision_hit, load_texture]
  | succ k ih =>
    rw [Function.iterate_succ_apply', ih]
    simp [collision_hit, load_texture, List.replicate_succ', Nat.add_assoc]

theorem hitCount_pos_iff (A : Arith) (s : GameState) :
    0 < hitCount A s ↔ ∃ n ∈ NumeroDinosaure, collision_test A s n := by
  simp [hitCount, List.length_pos_iff_exists_mem, List.mem_filter]

theorem hitCount_eq_zero_iff (A : Arith) (s : GameState) :
    hitCount A s = 0 ↔ ¬ ∃ n ∈ NumeroDinosaure, collision_test A s n := by
  rw [← hitCount_pos_iff]; omega

/-- Either no obstacle passes the test and `collision` changes nothing, or the result is
the closed form of `collision_hit_iterate`. -/
theorem collision_cases (A : Arith) (s : GameState) :
    (hitCount A s = 0 ∧ collision A s = s) ∨
    ∃ k, hitCount A s = k + 1 ∧ collision A s = (collision_hit A)^[k + 1] s := by
  rw [collision_eq_iterate]
  cases h : hitCount A s with
  | zero => left; simp
  | succ k => right; exact ⟨k, rfl, rfl⟩

theorem collision_tr (A : Arith) (s : GameState) (n : Nat) :
    ((collision A s).obj n).tr = (s.obj n).tr := by
  rcases collision_cases A s with ⟨_, h⟩ | ⟨k, _, h⟩
  · rw [h]
  · rw [h, collision_hit_iterate]
    unfold GameState.obj
    split <;> rfl

theorem collision_test_collision (A : Arith) (s : GameState) (n : Nat) :
    collision_test A (collision A s) n ↔ collision_test A s n := by
  unfold collision_test
  have h2 := collision_tr A s 2
  have hn := collision_tr A s n
  simp only [GameState.obj] at h2
  rw [h2, hn]

/-- A test that passes in a lawful arithmetic comes from real distances below 5 and 2. -/
theorem collision_test_real (A : Arith) (hA : A.Lawful) (s : GameState) (n : Nat)
    (h : collision_test A s n) :
    |s.obj2.tr.translation.x - (s.obj n).tr.translation.x| < 5 ∧
    |s.obj2.tr.translation.z - (s.obj n).tr.translation.z| < 2 :=
  ⟨hA.abs_lt_of_abs_f32_lt 5 _ (hA.f32_eq 20 5 (by norm_num) (by norm_num)) h.1,
   hA.abs_lt_of_abs_f32_lt 2 _ (hA.f32_eq 8 2 (by norm_num) (by norm_num)) h.2⟩

/-! ## C1 : `win` -/

/-- C1. `win()` : when the player's Z is above 22 the new Z is -15 and the score is the old
score plus one; when Z is at most 22 both are unchanged; in both cases the rest of the
state is unchanged (the result is the old state with, at most, the player's Z and the
score replaced). -/
theorem win_contract (s : GameState) :
    (s.obj2.tr.translation.z > 22 →
      (win s).obj2.tr.translation.z = -15 ∧ (win s).score = s.score + 1) ∧
    (s.obj2.tr.translation.z ≤ 22 →
      (win s).obj2.tr.translation.z = s.obj2.tr.translation.z ∧ (win s).score = s.score) ∧
    win s = { s with obj2 := s.obj2.setZ (win s).obj2.tr.translation.z,
                     score := (win s).score } := by
  unfold win
  refine ⟨fun h => ?_, fun h => ?_, ?_⟩
  · simp [h]
  · simp [not_lt.mpr h]
  · split <;> simp [objet3d.setZ]

/-- C1, worked at Z = 22.1, Z = 21.9 and Z = 22 exactly. -/
theorem win_contract_witness :
    ((win (playerAt 0 (221/10))).obj2.tr.translation.z = -15 ∧
      (win (playerAt 0 (221/10))).score = (playerAt 0 (221/10)).score + 1) ∧
    ((win (playerAt 0 (219/10))).obj2.tr.translation.z = 219/10 ∧
      (win (playerAt 0 (219/10))).score = (playerAt 0 (219/10)).score) ∧
    ((win (playerAt 0 22)).obj2.tr.translation.z = 22 ∧
      (win (playerAt 0 22)).score = (playerAt 0 22).score) :=
  ⟨(win_contract (playerAt 0 (221/10))).1 (by norm_num [playerAt, objet3d.setZ]),
   (win_contract (playerAt 0 (219/10))).2.1 (by norm_num [playerAt, objet3d.setZ]),
   (win_contract (playerAt 0 22)).2.1 (by norm_num [playerAt, objet3d.setZ])⟩

/-! ## C2 : `collision` detects a hit -/

/-- C2. `collision()` from a state with `perdu = false` : afterwards `perdu` is true exactly
when, for some obstacle among `obj[0]`, `obj[3]`, `obj[4]`, `obj[5]`, the difference in X to
the player, as the program computes it, is below 5 in absolute value and the difference in
Z is below 2 (both strict); when there is none, the state is unchanged. In a lawful
arithmetic a hit needs real distances below 5 and 2, so that a distance of 5 or more in X,
or of 2 or more in Z, is never a hit. -/
theorem collision_detects (A : Arith) (s : GameState) (h : s.perdu = false) :
    ((collision A s).perdu = true ↔
      ∃ n ∈ [0, 3, 4, 5],
        |A.f32 (s.obj2.tr.translation.x - (s.obj n).tr.translation.x)| < 5 ∧
        |A.f32 (s.obj2.tr.translation.z - (s.obj n).tr.translation.z)| < 2) ∧
    ((¬ ∃ n ∈ [0, 3, 4, 5],
        |A.f32 (s.obj2.tr.translation.x - (s.obj n).tr.translation.x)| < 5 ∧
        |A.f32 (s.obj2.tr.translation.z - (s.obj n).tr.translation.z)| < 2) →
      collision A s = s) ∧
    (A.Lawful → (collision A s).perdu = true →
      ∃ n ∈ [0, 3, 4, 5],
        |s.obj2.tr.translation.x - (s.obj n).tr.translation.x| < 5 ∧
        |s.obj2.tr.translation.z - (s.obj n).tr.translation.z| < 2) := by
  have hz := hitCount_eq_zero_iff A s
  have hp := hitCount_pos_iff A s
  simp only [NumeroDinosaure, collision_test] at hz hp
  have key : (collision A s).perdu = true ↔
      ∃ n ∈ [0, 3, 4, 5],
        |A.f32 (s.obj2.tr.translation.x - (s.obj n).tr.translation.x)| < 5 ∧
        |A.f32 (s.obj2.tr.translation.z - (s.obj n).tr.translation.z)| < 2 := by
    rcases collision_cases A s with ⟨h0, hs⟩ | ⟨k, hk, hs⟩
    · rw [hs, h]
      constructor
      · intro hf; exact absurd hf (by simp)
      · intro he; exact absurd he (hz.mp h0)
    · have he := hp.mp (by omega)
      refine ⟨fun _ => he, fun _ => ?_⟩
      rw [hs, collision_hit_iterate]
  refine ⟨key, fun hn => ?_, fun hA hperdu => ?_⟩
  · rcases collision_cases A s with ⟨_, hs⟩ | ⟨k, hk, _⟩
    · exact hs
    · exact absurd (hp.mp (by omega)) hn
  · obtain ⟨n, hn, ht⟩ := key.mp hperdu
    exact ⟨n, hn, collision_test_real A hA s n ht⟩

/-! ## Worked states -/

@[simp] theorem facing_obj2 (x z x0 z0 : ℚ) :
    (facing x z x0 z0).obj2.tr.translation = ⟨x, 0, z⟩ := by
  simp [facing, playerAt, sampleInit, init, init_text, init_model_1, init_model_2,
    init_model_3, load_texture, startState, objet3d.setX, objet3d.setZ]

@[simp] theorem facing_obj0 (x z x0 z0 : ℚ) :
    (facing x z x0 z0).obj0.tr.translation = ⟨x0, 0, z0⟩ := by
  simp [facing, playerAt, sampleInit, init, init_text, init_model_1, init_model_2,
    init_model_3, load_texture, startState, objet3d.setX, objet3d.setZ]

@[simp] theorem facing_obj3 (x z x0 z0 : ℚ) :
    (facing x z x0 z0).obj3.tr.translation = ⟨30, 0, 1⟩ := by
  simp [facing, playerAt, sampleInit, init, init_text, init_model_1, init_model_2,
    init_model_3, load_texture, startState, objet3d.setX, objet3d.setZ]

@[simp] theorem facing_obj4 (x z x0 z0 : ℚ) :
    (facing x z x0 z0).obj4.tr.translation = ⟨30, 0, -5⟩ := by
  simp [facing, playerAt, sampleInit, init, init_text, init_model_1, init_model_2,
    init_model_3, load_texture, startState, objet3d.setX, objet3d.setZ]

@[simp] theorem facing_obj5 (x z x0 z0 : ℚ) :
    (facing x z x0 z0).obj5.tr.translation = ⟨-30, 0, 17⟩ := by
  simp [facing, playerAt, sampleInit, init, init_text, init_model_1, init_model_2,
    init_model_3, load_texture, startState, objet3d.setX, objet3d.setZ]

@[simp] theorem facing_perdu (x z x0 z0 : ℚ) : (facing x z x0 z0).perdu = false := rfl

@[simp] theorem facing_score (x z x0 z0 : ℚ) : (facing x z x0 z0).score = 0 := rfl

/-- C2, worked in the arithmetic of the program : an obstacle at exactly 5 in X, or at
exactly 2 in Z, from the player is not a hit and leaves the state as it is; an obstacle at
4.9 in X and 1.9 in Z is a hit; and in the state `nearMiss`, where the real difference in
X is 5 - 2^-25 and the float difference is 5, there is no hit. -/
theorem collision_detects_witness :
    collision ieee (facing 0 0 5 0) = facing 0 0 5 0 ∧
    collision ieee (facing 0 0 0 2) = facing 0 0 0 2 ∧
    (collision ieee (facing 0 0 (49/10) (19/10))).perdu = true ∧
    collision ieee nearMiss = nearMiss :=
  ⟨(collision_detects ieee (facing 0 0 5 0) rfl).2.1 (by decide!),
   (collision_detects ieee (facing 0 0 0 2) rfl).2.1 (by decide!),
   (collision_detects ieee (facing 0 0 (49/10) (19/10)) rfl).1.mpr (by decide!),
   (collision_detects ieee nearMiss rfl).2.1 (by decide!)⟩

/-! ## C3 : `collision` on a hit -/

/-- C3. `collision()` when some obstacle among `obj[0]`, `obj[3]`, `obj[4]`, `obj[5]` is
within the thresholds (differences as the program computes them) : afterwards the objects
0, 2, 3, 4, 5 are invisible, `obj[1]` keeps its visibility flag, label 3 is label 0 with the
value "T'es mauvais Jack" and the rectangle (-0.9,-0.9)-(0.9,0.9) as stored in floats,
`perdu` is true, and the transformations of all objects, `score` and `temps` are
unchanged. -/
theorem collision_on_hit (A : Arith) (s : GameState)
    (h : ∃ n ∈ [0, 3, 4, 5],
        |A.f32 (s.obj2.tr.translation.x - (s.obj n).tr.translation.x)| < 5 ∧
        |A.f32 (s.obj2.tr.translation.z - (s.obj n).tr.translation.z)| < 2) :
    (collision A s).obj0.visible = false ∧ (collision A s).obj2.visible = false ∧
    (collision A s).obj3.visible = false ∧ (collision A s).obj4.visible = false ∧
    (collision A s).obj5.visible = false ∧
    (collision A s).obj1.visible = s.obj1.visible ∧
    (collision A s).text0 = s.text0 ∧
    (collision A s).text3 =
      { s.text0 with value := "T'es mauvais Jack",
                     bottomLeft := ⟨A.f32 (-A.f64 (9/10)), A.f32 (-A.f64 (9/10))⟩,
                     topRight := ⟨A.f32 (A.f64 (9/10)), A.f32 (A.f64 (9/10))⟩ } ∧
    (collision A s).perdu = true ∧
    (∀ n, ((collision A s).obj n).tr = (s.obj n).tr) ∧
    (collision A s).score = s.score ∧ (collision A s).temps = s.temps := by
  have hp := (hitCount_pos_iff A s).mpr
    (by simpa only [NumeroDinosaure, collision_test] using h)
  refine ⟨?_, ?_, ?_, ?_, ?_, ?_, ?_, ?_, ?_, collision_tr A s, ?_, ?_⟩ <;>
    rcases collision_cases A s with ⟨h0, _⟩ | ⟨k, _, hs⟩ <;>
    first
      | omega
      | (rw [hs, collision_hit_iterate]; rfl)
      | (rw [hs, collision_hit_iterate])

/-- C3, worked in the arithmetic of the program on a state where `obj[0]` stands on the
player : the rectangle stored for label 3 has the corners -7549747/2^23 and
7549747/2^23, the floats nearest to -0.9 and 0.9. -/
theorem collision_on_hit_witness :
    (collision ieee (facing 0 0 0 0)).obj0.visible = false ∧
    (collision ieee (facing 0 0 0 0)).perdu = true ∧
    (collision ieee (facing 0 0 0 0)).text3.value = "T'es mauvais Jack" ∧
    (collision ieee (facing 0 0 0 0)).text3.bottomLeft =
      ⟨-7549747/8388608, -7549747/8388608⟩ ∧
    (collision ieee (facing 0 0 0 0)).text3.topRight =
      ⟨7549747/8388608, 7549747/8388608⟩ :=
  have h := collision_on_hit ieee (facing 0 0 0 0) (by decide!)
  ⟨h.1, h.2.2.2.2.2.2.2.2.1, by rw [h.2.2.2.2.2.2.2.1],
   by rw [h.2.2.2.2.2.2.2.1]; decide!, by rw [h.2.2.2.2.2.2.2.1]; decide!⟩

/-! ## Frame of `collision`, `win` and `timer_positions` -/

theorem collision_frame (A : Arith) (s : GameState) :
    (collision A s).score = s.score ∧ (collision A s).temps = s.temps ∧
    (collision A s).a = s.a ∧ (collision A s).b = s.b ∧ (collision A s).c = s.c ∧
    (collision A s).d = s.d ∧ (collision A s).cam = s.cam ∧
    ((collision A s).perdu = true ↔ s.perdu = true ∨ 0 < hitCount A s) := by
  rcases collision_cases A s with ⟨h0, hs⟩ | ⟨k, hk, hs⟩
  · rw [hs, h0]; simp
  · rw [hs, hk, collision_hit_iterate]; simp

theorem collision_perdu_of_perdu (A : Arith) (s : GameState) (h : s.perdu = true) :
    (collision A s).perdu = true :=
  (collision_frame A s).2.2.2.2.2.2.2.mpr (Or.inl h)

theorem collision_obj2_tr (A : Arith) (s : GameState) :
    (collision A s).obj2.tr = s.obj2.tr :=
  collision_tr A s 2

@[simp] theorem win_perdu (s : GameState) : (win s).perdu = s.perdu := by
  unfold win; split <;> rfl

@[simp] theorem timer_positions_perdu (A : Arith) (s : GameState) :
    (timer_positions A s).perdu = s.perdu :=
  rfl

@[simp] theorem timer_positions_score (A : Arith) (s : GameState) :
    (timer_positions A s).score = s.score :=
  rfl

@[simp] theorem timer_positions_obj2 (A : Arith) (s : GameState) :
    (timer_positions A s).obj2 = s.obj2 :=
  rfl

@[simp] theorem timer_reschedule_perdu (s : GameState) :
    (timer_reschedule s).perdu = s.perdu := rfl

@[simp] theorem timer_reschedule_score (s : GameState) :
    (timer_reschedule s).score = s.score := rfl

theorem win_score (s : GameState) :
    (win s).score = if s.obj2.tr.translation.z > 22 then s.score + 1 else s.score := by
  unfold win; split <;> rfl

/-! ## C9 : no early exit in `collision` -/

/-- C9, refuted as stated : in the arithmetic of the program, with `obj[0]` and `obj[3]`
both on the player, one call of `collision()` runs the hit actions twice (two loads of
`data/natani.tga`, two texture names used), which differs from running them once. -/
theorem collision_no_early_exit :
    collision_test ieee twoOnPlayer 0 ∧ collision_test ieee twoOnPlayer 3 ∧
    (collision ieee twoOnPlayer).effects =
      twoOnPlayer.effects ++
        [Effect.load_texture "data/natani.tga", Effect.load_texture "data/natani.tga"] ∧
    (collision ieee twoOnPlayer).glNextTexture = twoOnPlayer.glNextTexture + 2 ∧
    collision ieee twoOnPlayer ≠ collision_hit ieee twoOnPlayer := by
  decide!

/-- C9, amended. `collision()` has no early exit : it tests the four obstacles in the order
0, 3, 4, 5 and runs the hit actions once for each obstacle within the thresholds
(differences as the program computes them), so between 0 and 4 times per call, each run
loading `data/natani.tga`; when the four obstacles have the Z values given by
`init_model_1` (10, 1, -5, 17) at most one of them can be within the thresholds, and the
hit actions run at most once. -/
theorem collision_runs_hit_per_obstacle (A : Arith) (s : GameState) :
    collision A s = (collision_hit A)^[hitCount A s] s ∧
    hitCount A s =
      ([0, 3, 4, 5].filter fun n => decide
        (|A.f32 (s.obj2.tr.translation.x - (s.obj n).tr.translation.x)| < 5 ∧
         |A.f32 (s.obj2.tr.translation.z - (s.obj n).tr.translation.z)| < 2)).length ∧
    (collision A s).effects =
      s.effects ++ List.replicate (hitCount A s) (Effect.load_texture "data/natani.tga") ∧
    hitCount A s ≤ 4 ∧
    (A.Lawful → s.obj0.tr.translation.z = 10 → s.obj3.tr.translation.z = 1 →
      s.obj4.tr.translation.z = -5 → s.obj5.tr.translation.z = 17 → hitCount A s ≤ 1) := by
  refine ⟨collision_eq_iterate A s, rfl, ?_, ?_, ?_⟩
  · rcases collision_cases A s with ⟨h0, hs⟩ | ⟨k, hk, hs⟩
    · rw [hs, h0]; simp
    · rw [hs, hk, collision_hit_iterate]
  · exact (List.length_filter_le _ _).trans (by simp [NumeroDinosaure])
  · intro hA e0 e3 e4 e5
    have b0 : collision_test A s 0 →
        8 < s.obj2.tr.translation.z ∧ s.obj2.tr.translation.z < 12 := by
      intro h
      have h2 := abs_lt.mp (collision_test_real A hA s 0 h).2
      simp only [GameState.obj] at h2
      rw [e0] at h2
      constructor <;> linarith [h2.1, h2.2]
    have b3 : collision_test A s 3 →
        -1 < s.obj2.tr.translation.z ∧ s.obj2.tr.translation.z < 3 := by
      intro h
      have h2 := abs_lt.mp (collision_test_real A hA s 3 h).2
      simp only [GameState.obj] at h2
      rw [e3] at h2
      constructor <;> linarith [h2.1, h2.2]
    have b4 : collision_test A s 4 →
        -7 < s.obj2.tr.translation.z ∧ s.obj2.tr.translation.z < -3 := by
      intro h
      have h2 := abs_lt.mp (collision_test_real A hA s 4 h).2
      simp only [GameState.obj] at h2
      rw [e4] at h2
      constructor <;> linarith [h2.1, h2.2]
    have b5 : collision_test A s 5 →
        15 < s.obj2.tr.translation.z ∧ s.obj2.tr.translation.z < 19 := by
      intro h
      have h2 := abs_lt.mp (collision_test_real A hA s 5 h).2
      simp only [GameState.obj] at h2
      rw [e5] at h2
      constructor <;> linarith [h2.1, h2.2]
    by_cases h0 : collision_test A s 0 <;> by_cases h3 : collision_test A s 3 <;>
      by_cases h4 : collision_test A s 4 <;> by_cases h5 : collision_test A s 5 <;>
      first
        | (simp [NumeroDinosaure, hitCount, List.filter, h0, h3, h4, h5]; done)
        | (exfalso; linarith [(b0 h0).1, (b0 h0).2, (b3 h3).1, (b3 h3).2])
        | (exfalso; linarith [(b0 h0).1, (b0 h0).2, (b4 h4).1, (b4 h4).2])
        | (exfalso; linarith [(b0 h0).1, (b0 h0).2, (b5 h5).1, (b5 h5).2])
        | (exfalso; linarith [(b3 h3).1, (b3 h3).2, (b4 h4).1, (b4 h4).2])
        | (exfalso; linarith [(b3 h3).1, (b3 h3).2, (b5 h5).1, (b5 h5).2])
        | (exfalso; linarith [(b4 h4).1, (b4 h4).2, (b5 h5).1, (b5 h5).2])

/-- C9 amended, worked in the arithmetic of the program on `sampleInit` with the player at
Z = 9 and `obj[0]` at X = 1 : the obstacles keep the Z values of `init_model_1`, and the hit
actions run at most once (here once); in the state `nearMiss`, where the float difference
in X is 5, they run zero times. -/
theorem collision_runs_hit_per_obstacle_witness :
    hitCount ieee (facing 0 9 1 10) ≤ 1 ∧ hitCount ieee (facing 0 9 1 10) = 1 ∧
    hitCount ieee nearMiss = 0 ∧ (collision ieee nearMiss).effects = nearMiss.effects :=
  ⟨(collision_runs_hit_per_obstacle ieee (facing 0 9 1 10)).2.2.2.2 ieee_lawful
      (by simp) (by simp) (by simp) (by simp),
   by decide!, by decide!, by decide!⟩

/-! ## C4 : the score once the game is lost -/

/-- C4, refuted as stated : in the arithmetic of the program the play `lostTrace` from
`sampleInit` reaches a state with `perdu = true` and `score = 0` in which `collision()`
followed by `win()` sets `score` to 1. -/
theorem score_moves_after_lost :
    (run ieee lostTrace sampleInit).map
      (fun s => (s.perdu, s.score, (win (collision ieee s)).score)) = some (true, 0, 1) := by
  decide!

/-- C4, amended. From a state with `perdu = true`, `collision()` followed by `win()` leaves
`perdu` true, leaves `score` unchanged when the player's Z is at most 22, and adds exactly 1
to `score` when the player's Z is above 22 (`win()` does not look at `perdu`). -/
theorem lost_tick_score (A : Arith) (s : GameState) (h : s.perdu = true) :
    (win (collision A s)).perdu = true ∧
    (s.obj2.tr.translation.z ≤ 22 → (win (collision A s)).score = s.score) ∧
    (s.obj2.tr.translation.z > 22 → (win (collision A s)).score = s.score + 1) := by
  have hf := collision_frame A s
  have ht := collision_obj2_tr A s
  refine ⟨by simpa using collision_perdu_of_perdu A s h, fun hz => ?_, fun hz => ?_⟩
  · rw [win_score, ht, if_neg (not_lt.mpr hz), hf.1]
  · rw [win_score, ht, if_pos hz, hf.1]

/-- C4 amended, worked on a lost game with the player at Z = 10 and at Z = 23.5. -/
theorem lost_tick_score_witness :
    (win (collision ieee (lostAt 0 10))).score = (lostAt 0 10).score ∧
    (win (collision ieee (lostAt 0 (47/2)))).score = (lostAt 0 (47/2)).score + 1 :=
  ⟨(lost_tick_score ieee (lostAt 0 10) rfl).2.1
      (by norm_num [lostAt, playerAt, objet3d.setZ]),
   (lost_tick_score ieee (lostAt 0 (47/2)) rfl).2.2
      (by norm_num [lostAt, playerAt, objet3d.setZ])⟩

/-! ## C5 : `perdu` is never reset -/

theorem timer_callback_perdu_of_perdu (A : Arith) (s : GameState) (h : s.perdu = true) :
    (timer_callback A s).perdu = true := by
  unfold timer_callback
  simpa using collision_perdu_of_perdu A (timer_positions A s) (by simpa using h)

theorem compteur_perdu (A : Arith) (s : GameState) : (compteur A s).perdu = s.perdu := by
  unfold compteur; split <;> rfl

theorem special_callback_perdu (A : Arith) (key : Int) (s : GameState) :
    (special_callback A key s).perdu = s.perdu := by
  unfold special_callback
  split_ifs <;> rfl

theorem keyboard_callback_perdu (A : Arith) (key : Char) (s : GameState)
    (hk : ¬ (key = 'q' ∨ key = 'Q' ∨ key = Char.ofNat 27)) :
    ∃ s1, keyboard_callback A key s = some s1 ∧ s1.perdu = s.perdu := by
  unfold keyboard_callback
  simp only [if_neg hk]
  split_ifs <;> exact ⟨_, rfl, rfl⟩

theorem step_perdu (A : Arith) (e : Event) (s : GameState) (h : s.perdu = true)
    (he : e.isExit = false) : ∃ s1, step A e s = some s1 ∧ s1.perdu = true := by
  cases e with
  | timer => exact ⟨_, rfl, timer_callback_perdu_of_perdu A s h⟩
  | compteur => exact ⟨_, rfl, by rw [compteur_perdu, h]⟩
  | keyboard key =>
    have hk : ¬ (key = 'q' ∨ key = 'Q' ∨ key = Char.ofNat 27) := by
      simpa [Event.isExit] using he
    obtain ⟨s1, h1, h2⟩ := keyboard_callback_perdu A key s hk
    exact ⟨s1, h1, by rw [h2, h]⟩
  | special key => exact ⟨_, rfl, by rw [special_callback_perdu, h]⟩

/-- C5. From a state with `perdu = true`, every finite sequence of update ticks, counter
ticks, keyboard keys other than q, Q and Esc, and special keys (the arrow keys among them)
is handled to the end, and `perdu` is still true afterwards. -/
theorem lost_is_terminal (A : Arith) (evs : List Event) (s : GameState)
    (h : s.perdu = true) (hq : ∀ e ∈ evs, e.isExit = false) :
    ∃ s1, run A evs s = some s1 ∧ s1.perdu = true := by
  induction evs generalizing s with
  | nil => exact ⟨s, rfl, h⟩
  | cons e es ih =>
    obtain ⟨s1, h1, h2⟩ := step_perdu A e s h (hq e (List.mem_cons_self e es))
    obtain ⟨s2, h3, h4⟩ := ih s1 h2 (fun e1 he1 => hq e1 (List.mem_cons_of_mem e he1))
    exact ⟨s2, by simp only [run, h1, h3], h4⟩

/-- C5, worked on a lost game and a mixed sequence of eight events. -/
theorem lost_is_terminal_witness :
    ∃ s1, run ieee mixedEvents (lostAt 0 10) = some s1 ∧ s1.perdu = true :=
  lost_is_terminal ieee mixedEvents (lostAt 0 10) rfl (by decide)

/-! ## C6 : the obstacles stay in the track -/

theorem Arith.Lawful.f32_between {A : Arith} (hA : A.Lawful) (ml mh : ℤ)
    (hl : |ml| < 2 ^ 24) (hh : |mh| < 2 ^ 24) (q : ℚ)
    (h1 : (ml : ℚ) / 4 ≤ q) (h2 : q ≤ (mh : ℚ) / 4) :
    (ml : ℚ) / 4 ≤ A.f32 q ∧ A.f32 q ≤ (mh : ℚ) / 4 := by
  have a := hA.mono32 _ _ h1
  have b := hA.mono32 _ _ h2
  rw [hA.fix32 ml hl] at a
  rw [hA.fix32 mh hh] at b
  exact ⟨a, b⟩

theorem Arith.Lawful.f64_between {A : Arith} (hA : A.Lawful) (ml mh : ℤ)
    (hl : |ml| < 2 ^ 24) (hh : |mh| < 2 ^ 24) (q : ℚ)
    (h1 : (ml : ℚ) / 4 ≤ q) (h2 : q ≤ (mh : ℚ) / 4) :
    (ml : ℚ) / 4 ≤ A.f64 q ∧ A.f64 q ≤ (mh : ℚ) / 4 := by
  have a := hA.mono64 _ _ h1
  have b := hA.mono64 _ _ h2
  rw [hA.fix64 ml hl] at a
  rw [hA.fix64 mh hh] at b
  exact ⟨a, b⟩

theorem advance_right_bounds (A : Arith) (hA : A.Lawful) (x a : ℚ)
    (hx : -30 ≤ x ∧ x ≤ 30) (ha : 0 ≤ a ∧ a ≤ 1) :
    -30 ≤ advance_right A x a ∧ advance_right A x a ≤ 30 := by
  obtain ⟨v1, v2⟩ := hA.f64_between 1 5 (by norm_num) (by norm_num) (a + 1/4)
    (by norm_num; linarith [ha.1]) (by norm_num; linarith [ha.2])
  obtain ⟨y1, y2⟩ := hA.f64_between (-119) 125 (by norm_num) (by norm_num)
    (x + A.f64 (a + 1/4)) (by push_cast; linarith [hx.1]) (by push_cast; linarith [hx.2])
  obtain ⟨w1, w2⟩ := hA.f32_between (-119) 125 (by norm_num) (by norm_num) _ y1 y2
  unfold advance_right
  simp only
  split_ifs with h
  · obtain ⟨r1, r2⟩ := hA.f32_between (-100) (-95) (by norm_num) (by norm_num)
      (A.f32 (A.f64 (x + A.f64 (a + 1/4))) - 55)
      (by push_cast; linarith) (by push_cast; push_cast at w2; linarith)
    push_cast at r1 r2
    constructor <;> linarith
  · push_cast at w1
    exact ⟨by linarith, not_lt.mp h⟩

theorem advance_left_bounds (A : Arith) (hA : A.Lawful) (x b : ℚ)
    (hx : -30 ≤ x ∧ x ≤ 30) (hb : 0 ≤ b ∧ b ≤ 1) :
    -30 ≤ advance_left A x b ∧ advance_left A x b ≤ 30 := by
  obtain ⟨v1, v2⟩ := hA.f64_between 1 5 (by norm_num) (by norm_num) (b + 1/4)
    (by norm_num; linarith [hb.1]) (by norm_num; linarith [hb.2])
  obtain ⟨y1, y2⟩ := hA.f64_between (-125) 119 (by norm_num) (by norm_num)
    (x - A.f64 (b + 1/4)) (by push_cast; linarith [hx.1]) (by push_cast; linarith [hx.2])
  obtain ⟨w1, w2⟩ := hA.f32_between (-125) 119 (by norm_num) (by norm_num) _ y1 y2
  unfold advance_left
  simp only
  split_ifs with h
  · obtain ⟨r1, r2⟩ := hA.f32_between 75 80 (by norm_num) (by norm_num)
      (A.f32 (A.f64 (x - A.f64 (b + 1/4))) + 50)
      (by push_cast; push_cast at w1; linarith) (by push_cast; linarith)
    push_cast at r1 r2
    constructor <;> linarith
  · push_cast at w2
    exact ⟨not_lt.mp h, by linarith⟩

theorem win_frame (s : GameState) :
    (win s).obj0 = s.obj0 ∧ (win s).obj1 = s.obj1 ∧ (win s).obj3 = s.obj3 ∧
    (win s).obj4 = s.obj4 ∧ (win s).obj5 = s.obj5 ∧
    (win s).a = s.a ∧ (win s).b = s.b ∧ (win s).c = s.c ∧ (win s).d = s.d := by
  unfold win; split <;> simp

theorem timer_callback_draws (A : Arith) (s : GameState) :
    (timer_callback A s).a = s.a ∧ (timer_callback A s).b = s.b ∧
    (timer_callback A s).c = s.c ∧ (timer_callback A s).d = s.d := by
  have hw := win_frame (collision A (timer_positions A s))
  have hc := collision_frame A (timer_positions A s)
  unfold timer_callback timer_reschedule
  exact ⟨hw.2.2.2.2.2.1.trans hc.2.2.1, hw.2.2.2.2.2.2.1.trans hc.2.2.2.1,
    hw.2.2.2.2.2.2.2.1.trans hc.2.2.2.2.1, hw.2.2.2.2.2.2.2.2.trans hc.2.2.2.2.2.1⟩

/-- The abscissae of the four obstacles after one call of `timer_callback`. -/
theorem timer_callback_obstacles (A : Arith) (s : GameState) :
    (timer_callback A s).obj0.tr.translation.x =
      advance_right A s.obj0.tr.translation.x s.a ∧
    (timer_callback A s).obj3.tr.translation.x =
      advance_left A s.obj3.tr.translation.x s.b ∧
    (timer_callback A s).obj5.tr.translation.x =
      advance_right A s.obj5.tr.translation.x s.c ∧
    (timer_callback A s).obj4.tr.translation.x =
      advance_left A s.obj4.tr.translation.x s.d := by
  have hw := win_frame (collision A (timer_positions A s))
  have h0 := collision_tr A (timer_positions A s) 0
  have h3 := collision_tr A (timer_positions A s) 3
  have h4 := collision_tr A (timer_positions A s) 4
  have h5 := collision_tr A (timer_positions A s) 5
  simp only [GameState.obj] at h0 h3 h4 h5
  unfold timer_callback timer_reschedule
  simp only [hw.1, hw.2.2.1, hw.2.2.2.1, hw.2.2.2.2.1, h0, h3, h4, h5]
  exact ⟨rfl, rfl, rfl, rfl⟩

theorem timer_callback_track (A : Arith) (hA : A.Lawful) (s : GameState)
    (hd : drawsInUnit s)
    (h0 : inTrack s.obj0) (h3 : inTrack s.obj3) (h4 : inTrack s.obj4) (h5 : inTrack s.obj5) :
    drawsInUnit (timer_callback A s) ∧ inTrack (timer_callback A s).obj0 ∧
    inTrack (timer_callback A s).obj3 ∧ inTrack (timer_callback A s).obj4 ∧
    inTrack (timer_callback A s).obj5 := by
  obtain ⟨ea, eb, ec, ed⟩ := timer_callback_draws A s
  obtain ⟨e0, e3, e5, e4⟩ := timer_callback_obstacles A s
  obtain ⟨ha, hb, hc, hdd⟩ := hd
  unfold drawsInUnit inTrack at *
  rw [ea, eb, ec, ed, e0, e3, e4, e5]
  exact ⟨⟨ha, hb, hc, hdd⟩, advance_right_bounds A hA _ _ h0 ha,
    advance_left_bounds A hA _ _ h3 hb, advance_left_bounds A hA _ _ h4 hdd,
    advance_right_bounds A hA _ _ h5 hc⟩

theorem ticks_track (A : Arith) (hA : A.Lawful) (N : Nat) (s : GameState)
    (hd : drawsInUnit s)
    (h0 : inTrack s.obj0) (h3 : inTrack s.obj3) (h4 : inTrack s.obj4) (h5 : inTrack s.obj5) :
    inTrack (ticks A N s).obj0 ∧ inTrack (ticks A N s).obj3 ∧
    inTrack (ticks A N s).obj4 ∧ inTrack (ticks A N s).obj5 := by
  induction N generalizing s with
  | zero => exact ⟨h0, h3, h4, h5⟩
  | succ n ih =>
    obtain ⟨kd, k0, k3, k4, k5⟩ := timer_callback_track A hA s hd h0 h3 h4 h5
    exact ih (timer_callback A s) kd k0 k3 k4 k5

/-- The translations and the random draws after `init`. -/
theorem init_positions (A : Arith) (g : Assets) (base : GameState) :
    (init A g base).obj0.tr.translation = ⟨-15, 0, 10⟩ ∧
    (init A g base).obj3.tr.translation = ⟨30, 0, 1⟩ ∧
    (init A g base).obj4.tr.translation = ⟨30, 0, -5⟩ ∧
    (init A g base).obj5.tr.translation = ⟨-30, 0, 17⟩ ∧
    (init A g base).obj2.tr.translation = ⟨0, 0, -15⟩ ∧
    (init A g base).a = base.a ∧ (init A g base).b = base.b ∧
    (init A g base).c = base.c ∧ (init A g base).d = base.d :=
  ⟨rfl, rfl, rfl, rfl, rfl, rfl, rfl, rfl, rfl⟩

/-- C6. From the state that `init` builds (obstacles at X = -15, 30, 30, -30), for every
choice of the draws `a`, `b`, `c`, `d` in `[0, 1]` and after every number `N` of update
ticks, the X translation of each of `obj[0]`, `obj[3]`, `obj[4]`, `obj[5]` lies in
`[-30, 30]`. This holds in every lawful arithmetic : with the arithmetic taken as exact
(`exact`), as the claim takes it, and with the roundings of the program (`ieee`). -/
theorem obstacles_stay_in_track (A : Arith) (hA : A.Lawful) (g : Assets) (base : GameState)
    (N : Nat)
    (ha : 0 ≤ base.a ∧ base.a ≤ 1) (hb : 0 ≤ base.b ∧ base.b ≤ 1)
    (hc : 0 ≤ base.c ∧ base.c ≤ 1) (hd : 0 ≤ base.d ∧ base.d ≤ 1) :
    (-30 ≤ (ticks A N (init A g base)).obj0.tr.translation.x ∧
      (ticks A N (init A g base)).obj0.tr.translation.x ≤ 30) ∧
    (-30 ≤ (ticks A N (init A g base)).obj3.tr.translation.x ∧
      (ticks A N (init A g base)).obj3.tr.translation.x ≤ 30) ∧
    (-30 ≤ (ticks A N (init A g base)).obj4.tr.translation.x ∧
      (ticks A N (init A g base)).obj4.tr.translation.x ≤ 30) ∧
    (-30 ≤ (ticks A N (init A g base)).obj5.tr.translation.x ∧
      (ticks A N (init A g base)).obj5.tr.translation.x ≤ 30) := by
  obtain ⟨p0, p3, p4, p5, _, ea, eb, ec, ed⟩ := init_positions A g base
  apply ticks_track A hA N (init A g base)
  · unfold drawsInUnit; rw [ea, eb, ec, ed]; exact ⟨ha, hb, hc, hd⟩
  · unfold inTrack; rw [p0]; norm_num
  · unfold inTrack; rw [p3]; norm_num
  · unfold inTrack; rw [p4]; norm_num
  · unfold inTrack; rw [p5]; norm_num

/-- C6, worked with the extreme draws a = 0, b = 1, c = 1, d = 0 and N = 1000 ticks, for
`obj[0]`, with the arithmetic taken as exact and with the roundings of the program. -/
theorem obstacles_stay_in_track_witness :
    (-30 ≤ (ticks exact 1000 (init exact sampleAssets (startState 0 1 1 0))).obj0.tr.translation.x ∧
      (ticks exact 1000 (init exact sampleAssets (startState 0 1 1 0))).obj0.tr.translation.x ≤ 30) ∧
    (-30 ≤ (ticks ieee 1000 (init ieee sampleAssets (startState 0 1 1 0))).obj0.tr.translation.x ∧
      (ticks ieee 1000 (init ieee sampleAssets (startState 0 1 1 0))).obj0.tr.translation.x ≤ 30) :=
  ⟨(obstacles_stay_in_track exact exact_lawful sampleAssets (startState 0 1 1 0) 1000
    (by norm_num [startState]) (by norm_num [startState])
    (by norm_num [startState]) (by norm_num [startState])).1,
   (obstacles_stay_in_track ieee ieee_lawful sampleAssets (startState 0 1 1 0) 1000
    (by norm_num [startState]) (by norm_num [startState])
    (by norm_num [startState]) (by norm_num [startState])).1⟩

/-! ## C7 : three crossings, then a hit -/

theorem tickCrosses_iff (A : Arith) (s : GameState) :
    tickCrosses A s ↔ s.obj2.tr.translation.z > 22 := by
  unfold tickCrosses
  rw [collision_obj2_tr]
  rfl

theorem timer_callback_score (A : Arith) (s : GameState) :
    (timer_callback A s).score = if tickCrosses A s then s.score + 1 else s.score := by
  have hf := collision_frame A (timer_positions A s)
  unfold timer_callback tickCrosses
  rw [timer_reschedule_score, win_score, hf.1]
  rfl

theorem timer_callback_playerZ (A : Arith) (s : GameState)
    (h : s.obj2.tr.translation.z ≤ 22) :
    (timer_callback A s).obj2.tr.translation.z = s.obj2.tr.translation.z := by
  have hc := collision_obj2_tr A (timer_positions A s)
  have hz : ¬ (collision A (timer_positions A s)).obj2.tr.translation.z > 22 := by
    rw [hc]; exact not_lt.mpr h
  have hw : win (collision A (timer_positions A s)) = collision A (timer_positions A s) := by
    unfold win; rw [if_neg hz]
  unfold timer_callback timer_reschedule
  rw [hw]
  show (collision A (timer_positions A s)).obj2.tr.translation.z = s.obj2.tr.translation.z
  rw [hc]
  rfl

/-- After an update tick the player's Z is at most 22. -/
theorem timer_callback_playerZ_le (A : Arith) (s : GameState) :
    (timer_callback A s).obj2.tr.translation.z ≤ 22 := by
  by_cases hz : s.obj2.tr.translation.z ≤ 22
  · rw [timer_callback_playerZ A s hz]; exact hz
  · have hc := collision_obj2_tr A (timer_positions A s)
    have hgt : (collision A (timer_positions A s)).obj2.tr.translation.z > 22 := by
      rw [hc]; exact not_le.mp hz
    unfold timer_callback timer_reschedule win
    rw [if_pos hgt]
    show (-15 : ℚ) ≤ 22
    norm_num

theorem timer_callback_perdu_of_hitFree (A : Arith) (s : GameState) (h : ¬ tickHits A s) :
    (timer_callback A s).perdu = s.perdu := by
  have h0 := (hitCount_eq_zero_iff A (timer_positions A s)).mpr h
  rcases collision_cases A (timer_positions A s) with ⟨_, hs⟩ | ⟨k, hk, _⟩
  · unfold timer_callback
    rw [timer_reschedule_perdu, win_perdu, hs]
    rfl
  · omega

theorem timer_callback_perdu_of_hit (A : Arith) (s : GameState) (h : tickHits A s) :
    (timer_callback A s).perdu = true := by
  unfold timer_callback
  rw [timer_reschedule_perdu, win_perdu]
  exact (collision_frame A (timer_positions A s)).2.2.2.2.2.2.2.mpr
    (Or.inr ((hitCount_pos_iff _ _).mpr h))

theorem compteur_score (A : Arith) (s : GameState) : (compteur A s).score = s.score := by
  unfold compteur; split <;> rfl

theorem special_callback_score (A : Arith) (key : Int) (s : GameState) :
    (special_callback A key s).score = s.score := by
  unfold special_callback
  split_ifs <;> rfl

theorem keyboard_callback_score (A : Arith) (key : Char) (s s1 : GameState)
    (h : keyboard_callback A key s = some s1) :
    s1.score = s.score ∧ s1.perdu = s.perdu := by
  unfold keyboard_callback at h
  simp only at h
  split_ifs at h <;> simp only [Option.some.injEq] at h <;> subst h <;> exact ⟨rfl, rfl⟩

/-- While no tick finds a hit, the game stays in play and the score counts the crossings. -/
theorem run_hitFree (A : Arith) (evs : List Event) (s0 s1 : GameState)
    (hr : run A evs s0 = some s1) (hf : hitFree A evs s0 = true) :
    s1.perdu = s0.perdu ∧ s1.score = s0.score + crossings A evs s0 := by
  induction evs generalizing s0 with
  | nil =>
    simp only [run, Option.some.injEq] at hr
    subst hr
    simp [crossings]
  | cons e es ih =>
    simp only [run] at hr
    simp only [hitFree, Bool.and_eq_true, Bool.not_eq_true', decide_eq_false_iff_not] at hf
    cases hst : step A e s0 with
    | none => rw [hst] at hr; exact absurd hr (by simp)
    | some s =>
      rw [hst] at hr
      have hf2 := hf.2
      rw [hst] at hf2
      obtain ⟨ih1, ih2⟩ := ih s hr hf2
      simp only [crossings, hst]
      cases e with
      | timer =>
        simp only [step, Option.some.injEq] at hst
        subst hst
        have hnh : ¬ tickHits A s0 := fun hh => hf.1 ⟨rfl, hh⟩
        rw [ih1, ih2, timer_callback_perdu_of_hitFree A s0 hnh, timer_callback_score]
        refine ⟨rfl, ?_⟩
        by_cases hc : tickCrosses A s0 <;> simp [hc]; ring
      | compteur =>
        simp only [step, Option.some.injEq] at hst
        subst hst
        rw [ih1, ih2, compteur_perdu, compteur_score]
        simp
      | keyboard key =>
        simp only [step] at hst
        obtain ⟨k1, k2⟩ := keyboard_callback_score A key s0 s hst
        rw [ih1, ih2, k1, k2]
        simp
      | special key =>
        simp only [step, Option.some.injEq] at hst
        subst hst
        rw [ih1, ih2, special_callback_perdu, special_callback_score]
        simp

theorem ticks_lost_still (A : Arith) (N : Nat) (s : GameState) (hp : s.perdu = true)
    (hz : s.obj2.tr.translation.z ≤ 22) :
    (ticks A N s).score = s.score ∧ (ticks A N s).perdu = true := by
  induction N generalizing s with
  | zero => exact ⟨rfl, hp⟩
  | succ n ih =>
    have h1 := timer_callback_playerZ A s hz
    have h2 : (timer_callback A s).score = s.score := by
      rw [timer_callback_score,
        if_neg (fun hc => absurd ((tickCrosses_iff A s).mp hc) (not_lt.mpr hz))]
    have h3 := ih (timer_callback A s) (timer_callback_perdu_of_perdu A s hp)
      (by rw [h1]; exact hz)
    simp only [ticks]
    rw [h3.1, h2]
    exact ⟨rfl, h3.2⟩

/-- C7. In a lawful arithmetic (that of the program is one), start with `score = 0`,
`temps = 0`, `perdu = false` and handle any sequence of events in which no update tick
finds an obstacle within the thresholds and exactly three update ticks see the player's Z
above 22 : then `score = 3` and `perdu = false`. If, at the next update tick (not a fourth
crossing : the player's Z is at most 22, as it is right after the third crossing), an
obstacle among 0, 3, 4, 5 has, when `collision()` runs, exactly the player's X and Z, then
that tick sets `perdu = true`, and after every further number `N` of update ticks `score`
is still 3 and `perdu` is still true. -/
theorem three_crossings_then_hit (A : Arith) (hA : A.Lawful) (evs : List Event)
    (s0 s1 : GameState)
    (hs : s0.score = 0) (_ht : s0.temps = 0) (hp : s0.perdu = false)
    (hr : run A evs s0 = some s1) (hf : hitFree A evs s0 = true)
    (hc : crossings A evs s0 = 3) :
    (s1.score = 3 ∧ s1.perdu = false) ∧
    (s1.obj2.tr.translation.z ≤ 22 →
      (∃ n ∈ [0, 3, 4, 5],
        ((timer_positions A s1).obj n).tr.translation.x = s1.obj2.tr.translation.x ∧
        ((timer_positions A s1).obj n).tr.translation.z = s1.obj2.tr.translation.z) →
      (timer_callback A s1).perdu = true ∧
      ∀ N, (ticks A N (timer_callback A s1)).score = 3 ∧
        (ticks A N (timer_callback A s1)).perdu = true) := by
  obtain ⟨h1, h2⟩ := run_hitFree A evs s0 s1 hr hf
  have hscore : s1.score = 3 := by rw [h2, hs, hc]; rfl
  refine ⟨⟨hscore, by rw [h1, hp]⟩, fun hz hx => ?_⟩
  have hh : tickHits A s1 := by
    obtain ⟨n, hn, ex, ez⟩ := hx
    refine ⟨n, hn, ?_⟩
    unfold collision_test
    rw [ex, ez]
    simp [hA.f32_zero]
  have hp1 := timer_callback_perdu_of_hit A s1 hh
  have hs1 : (timer_callback A s1).score = 3 := by
    rw [timer_callback_score,
      if_neg (fun hc => absurd ((tickCrosses_iff A s1).mp hc) (not_lt.mpr hz)), hscore]
  refine ⟨hp1, fun N => ?_⟩
  have h3 := ticks_lost_still A N (timer_callback A s1) hp1
    (by rw [timer_callback_playerZ A s1 hz]; exact hz)
  exact ⟨by rw [h3.1, hs1], h3.2⟩

/-- C7, worked in the arithmetic of the program : from `playStart` the play
`threeCrossings` crosses three times without a hit and ends in `playEnd` with score 3; at
the next tick `obj[0]` arrives at X = 0, Z = -15, where the player stands, and from then on
the score stays 3 and the game stays lost. -/
theorem three_crossings_then_hit_witness :
    (playEnd.score = 3 ∧ playEnd.perdu = false) ∧
    (timer_callback ieee playEnd).perdu = true ∧
    ∀ N, (ticks ieee N (timer_callback ieee playEnd)).score = 3 ∧
      (ticks ieee N (timer_callback ieee playEnd)).perdu = true :=
  have h := three_crossings_then_hit ieee ieee_lawful threeCrossings playStart playEnd
    rfl rfl rfl (by decide!) (by decide!) (by decide!)
  ⟨h.1, h.2 (by decide!) (by decide!)⟩

/-! ## C10 : the arrow keys -/

theorem withPlayer_self (s : GameState) :
    s.withPlayer s.obj2.tr.translation.x s.obj2.tr.translation.z = s := rfl

theorem withPlayer_withPlayer (s : GameState) (x z x1 z1 : ℚ) :
    (s.withPlayer x z).withPlayer x1 z1 = s.withPlayer x1 z1 := rfl

theorem special_callback_withPlayer (A : Arith) (key : Int) (s : GameState) :
    special_callback A key s =
      s.withPlayer (special_callback A key s).obj2.tr.translation.x
        (special_callback A key s).obj2.tr.translation.z := by
  unfold special_callback
  split_ifs <;> rfl

/-- In single precision 1.5 is absorbed at 2^25 : the float nearest to 2^25 + 1.5 is
2^25. -/
theorem f32_absorbs : ieee.f32 (33554432 + 3/2) = 33554432 ∧ ieee.f32 33554432 = 33554432 := by
  decide!

theorem special_callback_inBox (key : Int) (s : GameState) (h : inBox s) :
    inBox (special_callback ieee key s) := by
  obtain ⟨⟨x1, x2⟩, z1, z2⟩ := h
  have hA := ieee_lawful
  have lo : ∀ q : ℚ, -43/2 ≤ q → -43/2 ≤ ieee.f32 q := by
    intro q hq
    have := hA.mono32 _ _ hq
    rwa [hA.f32_eq (-86) (-43/2) (by norm_num) (by norm_num)] at this
  have hi : ∀ q : ℚ, q ≤ 43/2 → ieee.f32 q ≤ 43/2 := by
    intro q hq
    have := hA.mono32 _ _ hq
    rwa [hA.f32_eq 86 (43/2) (by norm_num) (by norm_num)] at this
  have top : ∀ q : ℚ, q ≤ 33554432 + 3/2 → ieee.f32 q ≤ 33554432 := by
    intro q hq
    have := hA.mono32 _ _ hq
    rwa [f32_absorbs.1] at this
  unfold special_callback inBox
  simp only
  split_ifs with k1 c1 k2 k3 c3 k4 c4
  · exact ⟨⟨x1, x2⟩, lo _ (by linarith),
      top _ (by linarith)⟩
  · exact ⟨⟨x1, x2⟩, z1, z2⟩
  · exact ⟨⟨x1, x2⟩, lo _ (by linarith),
      top _ (by linarith)⟩
  · exact ⟨⟨lo _ (by linarith),
      hi _ (by linarith)⟩, z1, z2⟩
  · exact ⟨⟨x1, x2⟩, z1, z2⟩
  · exact ⟨⟨lo _ (by linarith),
      hi _ (by linarith)⟩, z1, z2⟩
  · exact ⟨⟨x1, x2⟩, z1, z2⟩
  · exact ⟨⟨x1, x2⟩, z1, z2⟩

theorem arrows_invariant (keys : List Int) (s0 s : GameState)
    (hf : s = s0.withPlayer s.obj2.tr.translation.x s.obj2.tr.translation.z)
    (hg : inBox s) :
    arrows ieee keys s =
      s0.withPlayer (arrows ieee keys s).obj2.tr.translation.x
        (arrows ieee keys s).obj2.tr.translation.z ∧
    inBox (arrows ieee keys s) := by
  induction keys generalizing s with
  | nil => exact ⟨hf, hg⟩
  | cons k ks ih =>
    apply ih (special_callback ieee k s) _ (special_callback_inBox k s hg)
    have h1 := special_callback_withPlayer ieee k s
    rw [hf, withPlayer_withPlayer] at h1
    rw [← hf] at h1
    exact h1

/-- C10. In the arithmetic of the program, from the state that `init` builds (player at
(0, 0, -15)), after every finite sequence of special keys handled by `special_callback`
(the arrow keys UP, DOWN, LEFT, RIGHT among them) the player's X lies in `[-21.5, 21.5]`
and the player's Z lies in `[-21.5, 2^25]`, and the state differs from the initial one in
nothing but the X and Z translation of `obj[2]`. UP, LEFT and RIGHT are guarded; DOWN is
not, and its bound is the float 2^25 = 33554432, where adding 1.5 no longer changes Z. -/
theorem arrows_keep_player_in_box (g : Assets) (base : GameState) (keys : List Int) :
    (-43/2 ≤ (arrows ieee keys (init ieee g base)).obj2.tr.translation.x ∧
      (arrows ieee keys (init ieee g base)).obj2.tr.translation.x ≤ 43/2) ∧
    (-43/2 ≤ (arrows ieee keys (init ieee g base)).obj2.tr.translation.z ∧
      (arrows ieee keys (init ieee g base)).obj2.tr.translation.z ≤ 33554432) ∧
    arrows ieee keys (init ieee g base) =
      { init ieee g base with
        obj2 := ((init ieee g base).obj2.setX
                  (arrows ieee keys (init ieee g base)).obj2.tr.translation.x).setZ
                  (arrows ieee keys (init ieee g base)).obj2.tr.translation.z } := by
  have hg : inBox (init ieee g base) := by
    unfold inBox
    rw [(init_positions ieee g base).2.2.2.2.1]
    norm_num
  obtain ⟨hf, hx, hz⟩ :=
    arrows_invariant keys (init ieee g base) (init ieee g base) (withPlayer_self _).symm hg
  exact ⟨hx, hz, hf⟩

/-- C10, worked : once the player's Z is 2^25, a DOWN key leaves it there; twenty-five DOWN
keys from the start bring Z to 22.5, and the next update tick sends the player back. -/
theorem arrows_worked :
    (special_callback ieee GLUT_KEY_DOWN (playerAt 0 33554432)).obj2.tr.translation.z =
      33554432 ∧
    (arrows ieee (List.replicate 25 GLUT_KEY_DOWN) sampleInit).obj2.tr.translation.z = 45/2 ∧
    (timer_callback ieee
      (arrows ieee (List.replicate 25 GLUT_KEY_DOWN) sampleInit)).obj2.tr.translation.z =
      -15 := by
  decide!

/-- With the arithmetic taken as exact the arrow keys keep no box : `n` DOWN keys bring Z to
`-15 + 1.5 n`. The bound of C10 on Z comes from the rounding of single precision. -/
theorem arrows_down_exact (n : Nat) (s : GameState) :
    (arrows exact (List.replicate n GLUT_KEY_DOWN) s).obj2.tr.translation.z =
      s.obj2.tr.translation.z + 3/2 * n := by
  induction n generalizing s with
  | zero => simp [arrows]
  | succ n ih =>
    have h := ih (special_callback exact GLUT_KEY_DOWN s)
    simp only [arrows, List.replicate_succ, List.foldl_cons] at h ⊢
    rw [h]
    simp only [special_callback, GLUT_KEY_DOWN, GLUT_KEY_UP, objet3d.setZ, exact]
    norm_num
    ring

/-! ## C11 : `compteur` -/

/-- C11. `compteur()` : from a state with `perdu = false` one call sets `temps` to the old
`temps` plus 1, the value of label 2 to the decimal string of the new `temps`, the value of
label 4 to the decimal string of `score`, and leaves `score`, `perdu` and the six objects
unchanged; from a state with `perdu = true` one call leaves the whole state unchanged. -/
theorem compteur_contract (A : Arith) (s : GameState) :
    (s.perdu = false →
      (compteur A s).temps = s.temps + 1 ∧
      (compteur A s).text2.value = toString (s.temps + 1) ∧
      (compteur A s).text4.value = toString s.score ∧
      (compteur A s).score = s.score ∧ (compteur A s).perdu = s.perdu ∧
      (compteur A s).obj0 = s.obj0 ∧ (compteur A s).obj1 = s.obj1 ∧
      (compteur A s).obj2 = s.obj2 ∧ (compteur A s).obj3 = s.obj3 ∧
      (compteur A s).obj4 = s.obj4 ∧ (compteur A s).obj5 = s.obj5) ∧
    (s.perdu = true → compteur A s = s) := by
  constructor
  · intro h
    unfold compteur
    rw [if_pos h]
    exact ⟨rfl, rfl, rfl, rfl, rfl, rfl, rfl, rfl, rfl, rfl, rfl⟩
  · intro h
    unfold compteur
    rw [if_neg (by simp [h])]

/-- C11, worked : in play with `temps = 41` and `score = 7` the labels read "42" and "7";
once the game is lost nothing changes. -/
theorem compteur_contract_witness :
    ((compteur ieee midGame).temps = 42 ∧ (compteur ieee midGame).text2.value = "42" ∧
      (compteur ieee midGame).text4.value = "7") ∧
    compteur ieee (lostAt 0 10) = lostAt 0 10 :=
  have h := (compteur_contract ieee midGame).1 rfl
  ⟨⟨h.1, h.2.1.trans (by decide), h.2.2.1.trans (by decide)⟩,
   (compteur_contract ieee (lostAt 0 10)).2 rfl⟩

/-! ## C13 : the position phase of `timer_callback` -/

/-- C13. The position phase of `timer_callback`. For `obj[0]` the sum `x + (a + 0.25)` is
computed in double precision and stored in the float `x`; when the stored value exceeds 30,
55 is subtracted in single precision. The same is done for `obj[5]` with the draw `c`. For
`obj[3]` the difference `x - (b + 0.25)` is computed and stored in the same way; when the
stored value is below -30, 50 is added in single precision. The same is done for `obj[4]`
with the draw `d`. Nothing else in the state changes, so no Y or Z translation changes and
`obj[1]` and the player `obj[2]` do not move; and the phase does the same whatever `perdu`
and the visibility flags are. -/
theorem timer_positions_step (A : Arith) (s : GameState) :
    timer_positions A s =
      { s with
        obj0 := s.obj0.setX
          (if A.f32 (A.f64 (s.obj0.tr.translation.x + A.f64 (s.a + 1/4))) > 30
            then A.f32 (A.f32 (A.f64 (s.obj0.tr.translation.x + A.f64 (s.a + 1/4))) - 55)
            else A.f32 (A.f64 (s.obj0.tr.translation.x + A.f64 (s.a + 1/4)))),
        obj5 := s.obj5.setX
          (if A.f32 (A.f64 (s.obj5.tr.translation.x + A.f64 (s.c + 1/4))) > 30
            then A.f32 (A.f32 (A.f64 (s.obj5.tr.translation.x + A.f64 (s.c + 1/4))) - 55)
            else A.f32 (A.f64 (s.obj5.tr.translation.x + A.f64 (s.c + 1/4)))),
        obj3 := s.obj3.setX
          (if A.f32 (A.f64 (s.obj3.tr.translation.x - A.f64 (s.b + 1/4))) < -30
            then A.f32 (A.f32 (A.f64 (s.obj3.tr.translation.x - A.f64 (s.b + 1/4))) + 50)
            else A.f32 (A.f64 (s.obj3.tr.translation.x - A.f64 (s.b + 1/4)))),
        obj4 := s.obj4.setX
          (if A.f32 (A.f64 (s.obj4.tr.translation.x - A.f64 (s.d + 1/4))) < -30
            then A.f32 (A.f32 (A.f64 (s.obj4.tr.translation.x - A.f64 (s.d + 1/4))) + 50)
            else A.f32 (A.f64 (s.obj4.tr.translation.x - A.f64 (s.d + 1/4)))) } ∧
    (∀ n, ((timer_positions A s).obj n).tr.translation.y = (s.obj n).tr.translation.y ∧
          ((timer_positions A s).obj n).tr.translation.z = (s.obj n).tr.translation.z) ∧
    (timer_positions A s).obj1 = s.obj1 ∧ (timer_positions A s).obj2 = s.obj2 ∧
    (∀ p v0 v1 v2 v3 v4 v5,
      timer_positions A (s.setFlags p v0 v1 v2 v3 v4 v5) =
        (timer_positions A s).setFlags p v0 v1 v2 v3 v4 v5) ∧
    (timer_callback A s).obj0.tr.translation.x = (timer_positions A s).obj0.tr.translation.x ∧
    (timer_callback A s).obj3.tr.translation.x = (timer_positions A s).obj3.tr.translation.x ∧
    (timer_callback A s).obj4.tr.translation.x = (timer_positions A s).obj4.tr.translation.x ∧
    (timer_callback A s).obj5.tr.translation.x = (timer_positions A s).obj5.tr.translation.x := by
  obtain ⟨e0, e3, e5, e4⟩ := timer_callback_obstacles A s
  refine ⟨rfl, fun n => ?_, rfl, rfl, fun p v0 v1 v2 v3 v4 v5 => rfl,
    e0.trans rfl, e3.trans rfl, e4.trans rfl, e5.trans rfl⟩
  unfold GameState.obj
  split <;> exact ⟨rfl, rfl⟩

/-- C13, worked in the arithmetic of the program. In `atTrackEnd` the sums 30 + 2^-21 and
-30 - 2^-21 are stored as 30 and -30 and neither `obj[0]` nor `obj[3]` wraps, where exact
sums would wrap; with the draw `a` equal to the float 0.1 the first tick moves `obj[0]` from
-15 to the float -7680819 / 2^19 = -14.649999618530273...; in `atWrapEdge` the rounding
makes the difference between a hit and none. -/
theorem timer_positions_worked :
    (timer_positions ieee atTrackEnd).obj0.tr.translation.x = 30 ∧
    (timer_positions ieee atTrackEnd).obj3.tr.translation.x = -30 ∧
    (timer_positions exact atTrackEnd).obj0.tr.translation.x = -25 + 1/2097152 ∧
    (timer_positions ieee tenthDraw).obj0.tr.translation.x = -7680819/524288 ∧
    tickHits ieee atWrapEdge ∧ ¬ tickHits exact atWrapEdge := by
  decide!

/-! ## C12 : the collision test is symmetric in sign -/

theorem collision_test_offsets (A : Arith) (s : GameState) (n : Nat) :
    collision_test A s n ↔ |A.f32 (offsetX s n)| < 5 ∧ |A.f32 (offsetZ s n)| < 2 := Iff.rfl

/-- The test of `collision` only looks at the absolute values of the two rounded offsets,
and the rounding of an opposite is the opposite of the rounding. -/
theorem collision_test_of_offsets (A : Arith) (hA : A.Lawful) (s t : GameState) (n : Nat)
    (hx : offsetX t n = offsetX s n ∨ offsetX t n = -offsetX s n)
    (hz : offsetZ t n = offsetZ s n ∨ offsetZ t n = -offsetZ s n) :
    collision_test A t n ↔ collision_test A s n := by
  rw [collision_test_offsets, collision_test_offsets]
  rcases hx with hx | hx <;> rcases hz with hz | hz <;> rw [hx, hz] <;>
    simp only [hA.abs_f32_neg]

theorem collision_perdu_of_tests (A : Arith) (s t : GameState)
    (key : ∀ n ∈ [0, 3, 4, 5], (collision_test A t n ↔ collision_test A s n))
    (hs : s.perdu = false) (ht : t.perdu = false) :
    (collision A t).perdu = (collision A s).perdu := by
  have hc : hitCount A t = 0 ↔ hitCount A s = 0 := by
    rw [hitCount_eq_zero_iff, hitCount_eq_zero_iff]
    simp only [NumeroDinosaure]
    constructor
    · rintro hn ⟨n, hm, hcs⟩
      exact hn ⟨n, hm, (key n hm).mpr hcs⟩
    · rintro hn ⟨n, hm, hct⟩
      exact hn ⟨n, hm, (key n hm).mp hct⟩
  have pt := (collision_frame A t).2.2.2.2.2.2.2
  have ps := (collision_frame A s).2.2.2.2.2.2.2
  rw [ht] at pt
  rw [hs] at ps
  by_cases h0 : hitCount A s = 0
  · have h1 := hc.mpr h0
    have e1 : (collision A t).perdu = false := by
      cases hv : (collision A t).perdu with
      | false => rfl
      | true => exact absurd (pt.mp hv) (by simp [h1])
    have e2 : (collision A s).perdu = false := by
      cases hv : (collision A s).perdu with
      | false => rfl
      | true => exact absurd (ps.mp hv) (by simp [h0])
    rw [e1, e2]
  · have h1 : hitCount A t ≠ 0 := fun h2 => h0 (hc.mp h2)
    rw [pt.mpr (Or.inr (Nat.pos_of_ne_zero h1)), ps.mpr (Or.inr (Nat.pos_of_ne_zero h0))]

/-- C12. In a lawful arithmetic (the exact one and that of the program are lawful), the hit
test of `collision()`, `|p.x - o.x| < 5` and `|p.z - o.z| < 2`, has the same truth value
when the X offset is negated, when the Z offset is negated, when both are, and when the
player and the obstacle exchange their positions; and two states in play whose offsets to
each of the four obstacles are equal or opposite get the same decision from
`collision()`. -/
theorem collision_test_symmetric (A : Arith) (hA : A.Lawful) (s t : GameState) :
    (∀ n, offsetX t n = -offsetX s n → offsetZ t n = offsetZ s n →
      (collision_test A t n ↔ collision_test A s n)) ∧
    (∀ n, offsetX t n = offsetX s n → offsetZ t n = -offsetZ s n →
      (collision_test A t n ↔ collision_test A s n)) ∧
    (∀ n, offsetX t n = -offsetX s n → offsetZ t n = -offsetZ s n →
      (collision_test A t n ↔ collision_test A s n)) ∧
    (collision_test A (swapPlayerObj0 s) 0 ↔ collision_test A s 0) ∧
    ((∀ n ∈ [0, 3, 4, 5],
        (offsetX t n = offsetX s n ∨ offsetX t n = -offsetX s n) ∧
        (offsetZ t n = offsetZ s n ∨ offsetZ t n = -offsetZ s n)) →
      s.perdu = false → t.perdu = false → (collision A t).perdu = (collision A s).perdu) := by
  refine ⟨fun n hx hz => collision_test_of_offsets A hA s t n (Or.inr hx) (Or.inl hz),
    fun n hx hz => collision_test_of_offsets A hA s t n (Or.inl hx) (Or.inr hz),
    fun n hx hz => collision_test_of_offsets A hA s t n (Or.inr hx) (Or.inr hz), ?_,
    fun h hs ht => collision_perdu_of_tests A s t
      (fun n hn => collision_test_of_offsets A hA s t n (h n hn).1 (h n hn).2) hs ht⟩
  apply collision_test_of_offsets A hA s (swapPlayerObj0 s) 0 <;> right <;>
    simp [offsetX, offsetZ, swapPlayerObj0, GameState.obj]

/-- C12, worked in the arithmetic of the program and in the exact one : with `obj[0]` 4 to
the right of and 1 behind the player, and with `obj[0]` 4 to the left of and 1 in front of
the player, the test gives the same answer and `collision()` decides the same. -/
theorem collision_test_symmetric_witness :
    (collision_test ieee (facing 0 0 (-4) (-1)) 0 ↔ collision_test ieee (facing 0 0 4 1) 0) ∧
    (collision ieee (facing 0 0 (-4) (-1))).perdu = (collision ieee (facing 0 0 4 1)).perdu ∧
    (collision exact (facing 0 0 (-4) (-1))).perdu =
      (collision exact (facing 0 0 4 1)).perdu :=
  have h := collision_test_symmetric ieee ieee_lawful (facing 0 0 4 1) (facing 0 0 (-4) (-1))
  have k := collision_test_symmetric exact exact_lawful (facing 0 0 4 1)
    (facing 0 0 (-4) (-1))
  have off : ∀ n ∈ [0, 3, 4, 5],
      (offsetX (facing 0 0 (-4) (-1)) n = offsetX (facing 0 0 4 1) n ∨
        offsetX (facing 0 0 (-4) (-1)) n = -offsetX (facing 0 0 4 1) n) ∧
      (offsetZ (facing 0 0 (-4) (-1)) n = offsetZ (facing 0 0 4 1) n ∨
        offsetZ (facing 0 0 (-4) (-1)) n = -offsetZ (facing 0 0 4 1) n) := by
    intro n hn
    simp only [List.mem_cons, List.mem_singleton, List.not_mem_nil, or_false] at hn
    rcases hn with rfl | rfl | rfl | rfl <;>
      norm_num [offsetX, offsetZ, GameState.obj]
  ⟨h.2.2.1 0 (by norm_num [offsetX, GameState.obj]) (by norm_num [offsetZ, GameState.obj]),
   h.2.2.2.2 off rfl rfl, k.2.2.2.2 off rfl rfl⟩

/-! ## C15 : a player sent back to Z = -15 is out of reach -/

theorem timer_callback_obstacleZ (A : Arith) (s : GameState) :
    obstacleZ (timer_callback A s) = obstacleZ s := by
  have hw := win_frame (collision A (timer_positions A s))
  have h0 := collision_tr A (timer_positions A s) 0
  have h3 := collision_tr A (timer_positions A s) 3
  have h4 := collision_tr A (timer_positions A s) 4
  have h5 := collision_tr A (timer_positions A s) 5
  simp only [GameState.obj] at h0 h3 h4 h5
  unfold obstacleZ timer_callback timer_reschedule
  simp only [hw.1, hw.2.2.1, hw.2.2.2.1, hw.2.2.2.2.1, h0, h3, h4, h5]
  rfl

theorem compteur_obstacleZ (A : Arith) (s : GameState) :
    obstacleZ (compteur A s) = obstacleZ s := by
  unfold compteur; split <;> rfl

theorem special_callback_obstacleZ (A : Arith) (key : Int) (s : GameState) :
    obstacleZ (special_callback A key s) = obstacleZ s := by
  unfold special_callback
  split_ifs <;> rfl

theorem keyboard_callback_obstacleZ (A : Arith) (key : Char) (s s1 : GameState)
    (h : keyboard_callback A key s = some s1) : obstacleZ s1 = obstacleZ s := by
  unfold keyboard_callback at h
  simp only at h
  split_ifs at h <;> simp only [Option.some.injEq] at h <;> subst h <;> rfl

/-- No callback changes the Z translation of an obstacle. -/
theorem run_obstacleZ (A : Arith) (evs : List Event) (s0 s1 : GameState)
    (hr : run A evs s0 = some s1) :
    obstacleZ s1 = obstacleZ s0 := by
  induction evs generalizing s0 with
  | nil =>
    simp only [run, Option.some.injEq] at hr
    rw [hr]
  | cons e es ih =>
    simp only [run] at hr
    cases hst : step A e s0 with
    | none => rw [hst] at hr; exact absurd hr (by simp)
    | some s =>
      rw [hst] at hr
      rw [ih s hr]
      cases e with
      | timer =>
        simp only [step, Option.some.injEq] at hst
        rw [← hst, timer_callback_obstacleZ]
      | compteur =>
        simp only [step, Option.some.injEq] at hst
        rw [← hst, compteur_obstacleZ]
      | keyboard key => exact keyboard_callback_obstacleZ A key s0 s hst
      | special key =>
        simp only [step, Option.some.injEq] at hst
        rw [← hst, special_callback_obstacleZ]

/-- With the obstacles at Z = 10, 1, -5, 17 and the player at Z = -15, no obstacle passes
the test of `collision`, wherever the obstacles are along X. -/
theorem no_test_at_rear (A : Arith) (hA : A.Lawful) (s : GameState)
    (hz : obstacleZ s = (10, 1, -5, 17)) (hp : s.obj2.tr.translation.z = -15) :
    ¬ ∃ n ∈ NumeroDinosaure, collision_test A s n := by
  simp only [obstacleZ, Prod.mk.injEq] at hz
  obtain ⟨z0, z3, z4, z5⟩ := hz
  rintro ⟨n, hn, ht⟩
  have h2 := (collision_test_real A hA s n ht).2
  simp only [NumeroDinosaure, List.mem_cons, List.mem_singleton, List.not_mem_nil,
    or_false] at hn
  rcases hn with rfl | rfl | rfl | rfl <;> simp only [GameState.obj] at h2
  · rw [hp, z0] at h2; norm_num [abs_lt] at h2
  · rw [hp, z3] at h2; norm_num [abs_lt] at h2
  · rw [hp, z4] at h2; norm_num [abs_lt] at h2
  · rw [hp, z5] at h2; norm_num [abs_lt] at h2

/-- C15. In a lawful arithmetic (the exact one and that of the program are lawful), in every
state reached from `init` by the callbacks, the obstacles `obj[0]`, `obj[3]`, `obj[4]`,
`obj[5]` still have their initial Z translations 10, 1, -5, 17; hence when the player's Z
is -15 (the start value and the value `win()` resets to) no obstacle is within the
thresholds, wherever the obstacles are along X : `collision()` changes nothing, and the
next update tick finds no hit either and leaves `perdu` as it is. -/
theorem respawn_is_safe (A : Arith) (hA : A.Lawful) (g : Assets) (base : GameState)
    (evs : List Event) (s : GameState)
    (hr : run A evs (init A g base) = some s) :
    (s.obj0.tr.translation.z = 10 ∧ s.obj3.tr.translation.z = 1 ∧
      s.obj4.tr.translation.z = -5 ∧ s.obj5.tr.translation.z = 17) ∧
    (s.obj2.tr.translation.z = -15 →
      (¬ ∃ n ∈ [0, 3, 4, 5],
        |A.f32 (s.obj2.tr.translation.x - (s.obj n).tr.translation.x)| < 5 ∧
        |A.f32 (s.obj2.tr.translation.z - (s.obj n).tr.translation.z)| < 2) ∧
      (¬ ∃ n ∈ [0, 3, 4, 5],
        |s.obj2.tr.translation.x - (s.obj n).tr.translation.x| < 5 ∧
        |s.obj2.tr.translation.z - (s.obj n).tr.translation.z| < 2) ∧
      collision A s = s ∧
      collision A (timer_positions A s) = timer_positions A s ∧
      (timer_callback A s).perdu = s.perdu) := by
  have hz : obstacleZ s = (10, 1, -5, 17) := by
    rw [run_obstacleZ A evs (init A g base) s hr]
    rfl
  have hz4 := hz
  simp only [obstacleZ, Prod.mk.injEq] at hz4
  refine ⟨hz4, fun hp => ?_⟩
  have h1 := no_test_at_rear A hA s hz hp
  have h1e := no_test_at_rear exact exact_lawful s hz hp
  have h2 : ¬ tickHits A s := no_test_at_rear A hA (timer_positions A s) hz hp
  have c1 : collision A s = s := by
    rcases collision_cases A s with ⟨_, hs⟩ | ⟨k, hk, _⟩
    · exact hs
    · exact absurd ((hitCount_eq_zero_iff A s).mpr h1) (by omega)
  have c2 : collision A (timer_positions A s) = timer_positions A s := by
    rcases collision_cases A (timer_positions A s) with ⟨_, hs⟩ | ⟨k, hk, _⟩
    · exact hs
    · exact absurd ((hitCount_eq_zero_iff A (timer_positions A s)).mpr h2) (by omega)
  exact ⟨h1, h1e, c1, c2, timer_callback_perdu_of_hitFree A s h2⟩

/-- C15, worked in the arithmetic of the program on the state reached from `sampleInit` by
the play `threeCrossings`, where the player has just been sent back to Z = -15. -/
theorem respawn_is_safe_witness :
    collision ieee respawned = respawned ∧
    (timer_callback ieee respawned).perdu = respawned.perdu :=
  have h := (respawn_is_safe ieee ieee_lawful sampleAssets
    (startState (1/2) (1/2) (1/2) (1/2)) threeCrossings respawned (by decide!)).2 (by decide!)
  ⟨h.2.2.1, h.2.2.2.2⟩

/-! ## The values stored by the callbacks stay in the finite range of binary32

The rounding `roundTo` has no infinity. The lemmas below show that none is needed : from
finite floats and draws in `[0, 1]` every value that `timer_callback` and
`special_callback` store is a finite float again. -/

theorem abs_round_le (f : ℚ → ℚ) (hm : ∀ x y : ℚ, x ≤ y → f x ≤ f y)
    (ho : ∀ x : ℚ, f (-x) = -f x) (c c1 q : ℚ) (hc : f c = c1) (h : |q| ≤ c) :
    |f q| ≤ c1 := by
  rw [abs_le] at h ⊢
  constructor
  · have := hm _ _ h.1
    rw [ho, hc] at this
    exact this
  · have := hm _ _ h.2
    rw [hc] at this
    exact this

theorem ieee_rounds_below_max :
    ieee.f32 (flt_max + 56) = flt_max ∧ ieee.f64 (flt_max + 56) = flt_max := by
  decide!

theorem f32_finite (q : ℚ) (h : |q| ≤ flt_max + 56) : |ieee.f32 q| ≤ flt_max :=
  abs_round_le ieee.f32 ieee_lawful.mono32 ieee_lawful.odd32 _ _ q ieee_rounds_below_max.1 h

theorem f64_finite (q : ℚ) (h : |q| ≤ flt_max + 56) : |ieee.f64 q| ≤ flt_max :=
  abs_round_le ieee.f64 ieee_lawful.mono64 ieee_lawful.odd64 _ _ q ieee_rounds_below_max.2 h

theorem advance_right_finite (x a : ℚ) (hx : |x| ≤ flt_max) (ha : 0 ≤ a ∧ a ≤ 1) :
    |advance_right ieee x a| ≤ flt_max := by
  have hA := ieee_lawful
  obtain ⟨v1, v2⟩ := hA.f64_between 1 5 (by norm_num) (by norm_num) (a + 1/4)
    (by norm_num; linarith [ha.1]) (by norm_num; linarith [ha.2])
  push_cast at v1 v2
  have hx2 := abs_le.mp hx
  have s1 : |ieee.f32 (ieee.f64 (x + ieee.f64 (a + 1/4)))| ≤ flt_max := by
    apply f32_finite
    have := f64_finite (x + ieee.f64 (a + 1/4))
      (abs_le.mpr ⟨by linarith [hx2.1], by linarith [hx2.2]⟩)
    linarith
  unfold advance_right
  simp only
  split_ifs with h
  · apply f32_finite
    have s2 := abs_le.mp s1
    exact abs_le.mpr ⟨by linarith [s2.1], by linarith [s2.2]⟩
  · exact s1

theorem advance_left_finite (x b : ℚ) (hx : |x| ≤ flt_max) (hb : 0 ≤ b ∧ b ≤ 1) :
    |advance_left ieee x b| ≤ flt_max := by
  have hA := ieee_lawful
  obtain ⟨v1, v2⟩ := hA.f64_between 1 5 (by norm_num) (by norm_num) (b + 1/4)
    (by norm_num; linarith [hb.1]) (by norm_num; linarith [hb.2])
  push_cast at v1 v2
  have hx2 := abs_le.mp hx
  have s1 : |ieee.f32 (ieee.f64 (x - ieee.f64 (b + 1/4)))| ≤ flt_max := by
    apply f32_finite
    have := f64_finite (x - ieee.f64 (b + 1/4))
      (abs_le.mpr ⟨by linarith [hx2.1], by linarith [hx2.2]⟩)
    linarith
  unfold advance_left
  simp only
  split_ifs with h
  · apply f32_finite
    have s2 := abs_le.mp s1
    exact abs_le.mpr ⟨by linarith [s2.1], by linarith [s2.2]⟩
  · exact s1

/-- A step of 1.5 or of 1 from a finite float, as the key handlers make, gives a finite
float. -/
theorem key_step_finite (z d : ℚ) (hz : |z| ≤ flt_max) (hd : |d| ≤ 3/2) :
    |ieee.f32 (z + d)| ≤ flt_max := by
  apply f32_finite
  have h1 := abs_le.mp hz
  have h2 := abs_le.mp hd
  exact abs_le.mpr ⟨by linarith [h1.1, h2.1], by linarith [h1.2, h2.2]⟩

/-! ## C8 : the text written by `print_screen` -/

theorem foldl_append_init (l : List String) (init : String) :
    l.foldl (fun r s => r ++ s) init = init ++ l.foldl (fun r s => r ++ s) "" := by
  induction l generalizing init with
  | nil => simp
  | cons a l ih =>
    simp only [List.foldl_cons]
    rw [ih (init ++ a), ih ("" ++ a), String.empty_append, String.append_assoc]

theorem join_cons (a : String) (l : List String) :
    String.join (a :: l) = a ++ String.join l := by
  simp only [String.join, List.foldl_cons]
  rw [foldl_append_init, String.empty_append]

theorem join_append (l1 l2 : List String) :
    String.join (l1 ++ l2) = String.join l1 ++ String.join l2 := by
  induction l1 with
  | nil => simp [String.join]
  | cons a l ih => rw [List.cons_append, join_cons, join_cons, ih, String.append_assoc]

theorem foldl_text {α : Type} (f : α → String) (l : List α) (init : String) :
    l.foldl (fun acc x => acc ++ f x) init = init ++ String.join (l.map f) := by
  induction l generalizing init with
  | nil => simp [String.join]
  | cons a l ih =>
    simp only [List.foldl_cons, List.map_cons]
    rw [ih, join_cons, String.append_assoc]

theorem ppm_components_append (l1 l2 : List Nat) :
    ppm_components (l1 ++ l2) = ppm_components l1 ++ ppm_components l2 := by
  unfold ppm_components
  rw [List.map_append, join_append]

theorem ppm_components_flatMap {α : Type} (g : α → List Nat) (l : List α) :
    String.join (l.map fun x => ppm_components (g x)) = ppm_components (l.flatMap g) := by
  induction l with
  | nil => rfl
  | cons a l ih =>
    rw [List.map_cons, join_cons, ih, List.flatMap_cons, ppm_components_append]

theorem print_screen_pixel_eq (w h : Nat) (pixels : List Nat) (y : Nat) (ofs : String)
    (x : Nat) :
    print_screen_pixel w h pixels y ofs x =
      ofs ++ ppm_components
        [pixels.getD (3 * (x + (h - y - 1) * w) + 0) 0,
         pixels.getD (3 * (x + (h - y - 1) * w) + 1) 0,
         pixels.getD (3 * (x + (h - y - 1) * w) + 2) 0] := by
  unfold print_screen_pixel ppm_components
  simp only [List.map_cons, List.map_nil, join_cons]
  simp only [String.join, List.foldl_nil, String.append_empty, String.append_assoc]

theorem print_screen_row_eq (w h : Nat) (pixels : List Nat) (ofs : String) (y : Nat) :
    print_screen_row w h pixels ofs y =
      ofs ++ ppm_line ((List.range w).flatMap fun x =>
        [pixels.getD (3 * (x + (h - y - 1) * w) + 0) 0,
         pixels.getD (3 * (x + (h - y - 1) * w) + 1) 0,
         pixels.getD (3 * (x + (h - y - 1) * w) + 2) 0]) := by
  unfold print_screen_row ppm_line
  have hfun : print_screen_pixel w h pixels y = fun ofs x => ofs ++ ppm_components
        [pixels.getD (3 * (x + (h - y - 1) * w) + 0) 0,
         pixels.getD (3 * (x + (h - y - 1) * w) + 1) 0,
         pixels.getD (3 * (x + (h - y - 1) * w) + 2) 0] := by
    funext ofs x
    exact print_screen_pixel_eq w h pixels y ofs x
  rw [hfun, foldl_text, ppm_components_flatMap, String.append_assoc]

theorem take_three_eq_flatMap (w : Nat) (L : List Nat) (hL : 3 * w ≤ L.length) :
    L.take (3 * w) =
      (List.range w).flatMap fun x =>
        [L.getD (3 * x + 0) 0, L.getD (3 * x + 1) 0, L.getD (3 * x + 2) 0] := by
  induction w with
  | zero => simp
  | succ w ih =>
    rw [List.range_succ, List.flatMap_append, ← ih (by omega)]
    have e : 3 * (w + 1) = 3 * w + 1 + 1 + 1 := by ring
    rw [e, List.take_succ, List.take_succ, List.take_succ]
    simp only [List.getD_eq_getElem?_getD, List.flatMap_cons, List.flatMap_nil,
      List.append_nil, Nat.add_zero]
    rw [List.getElem?_eq_getElem (by omega : 3 * w < L.length),
      List.getElem?_eq_getElem (by omega : 3 * w + 1 < L.length),
      List.getElem?_eq_getElem (by omega : 3 * w + 2 < L.length)]
    simp only [Option.toList, Option.getD_some, List.append_assoc, List.cons_append,
      List.nil_append]

theorem framebuffer_row_eq (w h : Nat) (fb : List Nat) (hlen : fb.length = 3 * w * h)
    (y : Nat) (hy : y < h) :
    ((List.range w).flatMap fun x =>
        [fb.getD (3 * (x + (h - y - 1) * w) + 0) 0,
         fb.getD (3 * (x + (h - y - 1) * w) + 1) 0,
         fb.getD (3 * (x + (h - y - 1) * w) + 2) 0]) =
      framebuffer_row w fb (h - 1 - y) := by
  unfold framebuffer_row
  have hr : h - 1 - y + 1 ≤ h := by omega
  have hle : 3 * w * (h - 1 - y) + 3 * w ≤ 3 * w * h := by
    calc 3 * w * (h - 1 - y) + 3 * w = 3 * w * (h - 1 - y + 1) := by ring
      _ ≤ 3 * w * h := Nat.mul_le_mul_left _ hr
  rw [take_three_eq_flatMap w _ (by rw [List.length_drop]; omega)]
  have hyy : h - y - 1 = h - 1 - y := by omega
  congr 1
  funext x
  simp only [List.getD_eq_getElem?_getD, List.getElem?_drop, hyy]
  have e0 : 3 * (x + (h - 1 - y) * w) + 0 = 3 * w * (h - 1 - y) + (3 * x + 0) := by ring
  have e1 : 3 * (x + (h - 1 - y) * w) + 1 = 3 * w * (h - 1 - y) + (3 * x + 1) := by ring
  have e2 : 3 * (x + (h - 1 - y) * w) + 2 = 3 * w * (h - 1 - y) + (3 * x + 2) := by ring
  rw [e0, e1, e2]

theorem print_screen_text_eq (w h : Nat) (fb : List Nat) (hlen : fb.length = 3 * w * h) :
    print_screen_text w h fb = ppm_flipped w h fb := by
  unfold print_screen_text ppm_flipped ppm_header
  have hfun : print_screen_row w h fb = fun ofs y =>
      ofs ++ ppm_line ((List.range w).flatMap fun x =>
        [fb.getD (3 * (x + (h - y - 1) * w) + 0) 0,
         fb.getD (3 * (x + (h - y - 1) * w) + 1) 0,
         fb.getD (3 * (x + (h - y - 1) * w) + 2) 0]) := by
    funext ofs y
    exact print_screen_row_eq w h fb ofs y
  simp only [hfun]
  rw [foldl_text]
  congr 2
  apply List.map_congr_left
  intro y hy
  rw [framebuffer_row_eq w h fb hlen y (List.mem_range.mp hy)]

theorem solid_length (n r g b : Nat) : (solid n r g b).length = 3 * n := by
  unfold solid
  induction n with
  | zero => rfl
  | succ n ih =>
    rw [List.replicate_succ, List.flatten_cons, List.length_append, ih]
    simp only [List.length_cons, List.length_nil]
    omega

theorem solid_add (m n r g b : Nat) :
    solid (m + n) r g b = solid m r g b ++ solid n r g b := by
  unfold solid
  rw [List.replicate_add, List.flatten_append]

theorem framebuffer_row_solid (w h r g b k : Nat) (hk : k < h) :
    framebuffer_row w (solid (w * h) r g b) k = solid w r g b := by
  unfold framebuffer_row
  have e : w * h = w * k + (w + w * (h - k - 1)) := by
    have : h = k + (1 + (h - k - 1)) := by omega
    calc w * h = w * (k + (1 + (h - k - 1))) := by rw [← this]
      _ = w * k + (w + w * (h - k - 1)) := by ring
  rw [e, solid_add, solid_add]
  rw [List.drop_left' (by rw [solid_length]; ring), List.take_left' (solid_length w r g b)]

theorem ppm_components_solid (w r g b : Nat) :
    ppm_components (solid w r g b) =
      String.join (List.replicate w
        (toString r ++ " " ++ toString g ++ " " ++ toString b ++ " ")) := by
  induction w with
  | zero => rfl
  | succ w ih =>
    have e : solid (w + 1) r g b = [r, g, b] ++ solid w r g b := by
      unfold solid
      rw [List.replicate_succ, List.flatten_cons]
    rw [e, ppm_components_append, ih, List.replicate_succ, join_cons]
    congr 1
    unfold ppm_components
    simp only [List.map_cons, List.map_nil, join_cons]
    simp only [String.join, List.foldl_nil, String.append_empty, String.append_assoc]

theorem ppm_flipped_solid (w h r g b : Nat) :
    ppm_flipped w h (solid (w * h) r g b) = ppm_solid w h r g b := by
  unfold ppm_flipped ppm_solid
  congr 2
  have hm : (List.range h).map (fun y =>
      ppm_line (framebuffer_row w (solid (w * h) r g b) (h - 1 - y))) =
      (List.range h).map (fun _ => String.join (List.replicate w
        (toString r ++ " " ++ toString g ++ " " ++ toString b ++ " ")) ++ "\n") := by
    apply List.map_congr_left
    intro y hy
    have hy1 := List.mem_range.mp hy
    rw [framebuffer_row_solid w h r g b (h - 1 - y) (by omega)]
    unfold ppm_line
    rw [ppm_components_solid]
  rw [hm, List.map_const', List.length_range]

/-- C8. For a viewport of `w` by `h` pixels and the `3 * w * h` bytes read by `glReadPixels`
(bottom row first), the text that `print_screen` writes is the header `P3\n<w> <h>\n255\n`
followed by `h` lines, line `y` holding the components of framebuffer row `h - 1 - y` from
left to right, each in decimal followed by one space, and a line feed at the end of the
line; for a framebuffer of one colour `(r, g, b)` every one of the `w * h` triplets written
is `r g b`. -/
theorem print_screen_writes_flipped_ppm (w h : Nat) (fb : List Nat)
    (hlen : fb.length = 3 * w * h) :
    print_screen_text w h fb = ppm_flipped w h fb ∧
    ∀ r g b, fb = solid (w * h) r g b → print_screen_text w h fb = ppm_solid w h r g b := by
  refine ⟨print_screen_text_eq w h fb hlen, fun r g b hfb => ?_⟩
  rw [print_screen_text_eq w h fb hlen, hfb, ppm_flipped_solid]

/-- C8, worked : a 2 by 2 framebuffer whose bottom row is red, green and whose top row is
blue, white is written top row first; a 2 by 1 framebuffer of colour (7, 8, 9). -/
theorem print_screen_writes_flipped_ppm_witness :
    print_screen_text 2 2 sampleFramebuffer =
      "P3\n2 2\n255\n0 0 255 255 255 255 \n255 0 0 0 255 0 \n" ∧
    print_screen_text 2 1 (solid (2 * 1) 7 8 9) = "P3\n2 1\n255\n7 8 9 7 8 9 \n" :=
  ⟨(print_screen_writes_flipped_ppm 2 2 sampleFramebuffer rfl).1.trans (by decide!),
   ((print_screen_writes_flipped_ppm 2 1 (solid (2 * 1) 7 8 9) rfl).2 7 8 9 rfl).trans
     (by decide!)⟩

/-! ## The two readings of `abs` in `collision` agree

Whether `abs(float)` resolves to the floating-point overload or to `int abs(int)` after a
conversion to `int`, the comparison with the whole numbers 5 and 2 gives the same answer,
so `collision_test` stands for both. -/

theorem abs_float_to_int_lt (q : ℚ) (n : ℕ) :
    |float_to_int q| < (n : ℤ) ↔ |q| < (n : ℚ) := by
  unfold float_to_int
  split_ifs with h
  · rw [abs_of_nonneg (Int.floor_nonneg.mpr h), abs_of_nonneg h]
    exact Int.floor_lt.trans (by simp)
  · have hq : q < 0 := not_le.mp h
    have hc : ⌈q⌉ ≤ 0 := Int.ceil_le.mpr (by simpa using hq.le)
    rw [abs_of_nonpos hc, abs_of_neg hq, neg_lt, Int.lt_ceil, neg_lt]
    simp

/-! ## C14 : the file name of the screenshot -/

theorem find_last_of_split (pre suf : List Char) (c : Char) (h : c ∉ suf) :
    find_last_of (pre ++ c :: suf) c = pre.length := by
  unfold find_last_of
  rw [if_pos (by simp)]
  have hr : (pre ++ c :: suf).reverse = suf.reverse ++ c :: pre.reverse := by simp
  rw [hr, List.indexOf_append_of_not_mem (by simpa using h), List.indexOf_cons_self]
  simp only [List.length_append, List.length_cons, List.length_reverse]
  omega

theorem substr_after_last (pre suf : List Char) (c : Char) (h : c ∉ suf)
    (hlen : (pre ++ c :: suf).length < 2 ^ 64) :
    substr (pre ++ c :: suf) ((find_last_of (pre ++ c :: suf) c + 1) % 2 ^ 64) = suf := by
  rw [find_last_of_split pre suf c h]
  simp only [List.length_append, List.length_cons] at hlen
  rw [Nat.mod_eq_of_lt (by omega)]
  unfold substr
  have e : pre ++ c :: suf = (pre ++ [c]) ++ suf := by simp
  rw [e, List.drop_left' (by simp)]

theorem substr_no_dot (l : List Char) (c : Char) (h : c ∉ l) :
    substr l ((find_last_of l c + 1) % 2 ^ 64) = l := by
  unfold find_last_of substr npos
  rw [if_neg h]
  rfl

/-- What the extension test of `print_screen` computes : a name is left as it is exactly
when it ends with `.ppm` or is the bare word `ppm`; any other name gets `.ppm` appended. -/
theorem print_screen_extension_eq (filename : String) (hlen : filename.data.length < 2 ^ 64) :
    print_screen_extension filename =
      if ends_with_ppm filename ∨ filename = "ppm" then filename else filename ++ ".ppm" := by
  unfold print_screen_extension ends_with_ppm
  by_cases hd : '.' ∈ filename.data
  · obtain ⟨as, bs, hrev, hnot⟩ := List.eq_append_cons_of_mem (List.mem_reverse.mpr hd)
    have hl : filename.data = bs.reverse ++ '.' :: as.reverse := by
      have := congrArg List.reverse hrev
      simpa using this
    have hsuf : '.' ∉ as.reverse := by simpa using hnot
    have hsub := substr_after_last bs.reverse as.reverse '.' hsuf (by rw [← hl]; exact hlen)
    rw [← hl] at hsub
    rw [hsub]
    have hne : filename ≠ "ppm" := by
      intro he
      rw [he] at hd
      exact absurd hd (by decide)
    by_cases hs : as.reverse = "ppm".data
    · have h1 : ¬ (String.mk as.reverse ≠ "ppm") := by
        rw [hs]; simp
      have h2 : ".ppm".data <:+ filename.data := by
        rw [hl, hs]
        exact ⟨bs.reverse, rfl⟩
      rw [if_neg h1, if_pos (Or.inl h2)]
    · have h1 : String.mk as.reverse ≠ "ppm" := by
        intro he
        exact hs (congrArg String.data he)
      have h2 : ¬ (".ppm".data <:+ filename.data) := by
        rintro ⟨q, hq⟩
        have hq2 : filename.data = q ++ '.' :: "ppm".data := hq.symm
        have hsub2 := substr_after_last q "ppm".data '.' (by decide) (by rw [← hq2]; exact hlen)
        rw [← hq2, hsub] at hsub2
        exact hs hsub2
      rw [if_pos h1, if_neg (by simp [h2, hne])]
  · rw [substr_no_dot filename.data '.' hd]
    have h2 : ¬ (".ppm".data <:+ filename.data) := by
      rintro ⟨q, hq⟩
      apply hd
      rw [← hq]
      simp
    by_cases hs : filename = "ppm"
    · rw [if_neg (by simp [hs]), if_pos (Or.inr hs)]
    · have h1 : String.mk filename.data ≠ "ppm" := hs
      rw [if_pos h1, if_neg (by simp [h2, hs])]

theorem print_screen_path_of_name (timestamp filename : String) (h : filename ≠ "") :
    print_screen_path timestamp filename = print_screen_extension filename := by
  unfold print_screen_path
  rw [if_neg h]

/-- C14, the failing input : for the file name `ppm` the test of `print_screen` finds no
dot, `find_last_of(".") + 1` wraps to 0, the whole name is compared with `ppm`, and the
path opened is `ppm`, which does not end with `.ppm` and did not get `.ppm` appended;
every other name of the usual kinds is handled as the claim says. -/
theorem print_screen_path_bare_ppm (timestamp : String) :
    print_screen_path timestamp "ppm" = "ppm" ∧
    ¬ ends_with_ppm (print_screen_path timestamp "ppm") ∧
    print_screen_path timestamp "ppm" ≠ "ppm" ++ ".ppm" ∧
    print_screen_path timestamp "shot" = "shot.ppm" ∧
    print_screen_path timestamp "shot.ppm" = "shot.ppm" ∧
    print_screen_path timestamp "shot.png" = "shot.png.ppm" ∧
    print_screen_path timestamp "my.dir/ppm" = "my.dir/ppm.ppm" := by
  rw [print_screen_path_of_name timestamp "ppm" (by decide),
    print_screen_path_of_name timestamp "shot" (by decide),
    print_screen_path_of_name timestamp "shot.ppm" (by decide),
    print_screen_path_of_name timestamp "shot.png" (by decide),
    print_screen_path_of_name timestamp "my.dir/ppm" (by decide)]
  decide

end ProjetTsi
